import Mathlib

/-! FLT record scanner: a shallow embedding of `src/main.cpp`.

The program loads an OpenFlight-style file into `Reader::buffer_`, emits a Database
node from the header record, runs two scan loops over a shared cursor and finally
prints one line per Face node.

Modelling conventions.

* The buffer is a list of bytes (`Fin 256`).  `operator[]` outside the buffer is
  undefined behaviour in C++; every read is an `Option`, `none` meaning such a read.
* Offsets are `uintmax_t`.  A `std::vector<uint8_t>` holds fewer than `2^63` bytes, a
  read succeeds only at an index below the buffer length, and every offset the program
  forms is an in-range index plus less than `2^19`; so no 64-bit addition wraps before
  an out-of-range read happens.  Offsets are therefore natural numbers.
* `uint16_t` / `uint32_t` results of `get_2b` / `get_4b` and the `uint32_t` product in the
  color lookup keep their explicit `% 2^w`.
* The two `while (true)` loops take a fuel argument; running out of fuel is reported
  separately (`Outcome.running`) from undefined behaviour (`Outcome.undef`).
* `std::cout` output is modelled by the values printed: the node list and one
  `Appearance` per line of the second report.
-/

namespace FLT

/-! ## Constants (`src/main.cpp` lines 27-41) -/

/-- Entries of the `opcodes` table. -/
def PUSHLV : Nat := 0xA
def POPLV : Nat := 0xB
def GROUP : Nat := 0x2
def FACE : Nat := 0x5
def CLRPLT : Nat := 0x20
def MATPLT : Nat := 0x71
def LGTPLT : Nat := 0x66
def EPTPLT : Nat := 0x53
def VRXPLT : Nat := 0x43
def VRXCRN : Nat := 0x45
def OBJECT : Nat := 0x4
def LONGID : Nat := 0x21
def VRXLST : Nat := 0x48

inductive node_t where
  | DB
  | GROUP
  | OBJECT
  | FACE
  deriving DecidableEq, Repr

def id_offset : Nat := 4
def record_length_offset : Nat := 2
def color_offset : Nat := 20
def first_color_palette_offset : Nat := 132
def color_size : Nat := 4
def material_offset : Nat := 30

/-! ## Reader (`src/main.cpp` lines 43-87) -/

abbrev Byte := Fin 256

abbrev Buffer := List Byte

/-- `Reader::get_1b`: `buffer_[i]`. -/
def get_1b (buf : Buffer) (i : Nat) : Option Byte :=
  buf[i]?

/-- `Reader::get_2b`: `uint16_t(buffer_[i + 1]) | (uint16_t(buffer_[i]) << 8)`. -/
def get_2b (buf : Buffer) (i : Nat) : Option Nat := do
  let lo ← buf[i + 1]?
  let hi ← buf[i]?
  pure ((lo.val ||| (hi.val <<< 8)) % 2 ^ 16)

/-- `Reader::get_4b`: the four bytes at `i .. i + 3` combined by shifts and ors. -/
def get_4b (buf : Buffer) (i : Nat) : Option Nat := do
  let b3 ← buf[i + 3]?
  let b2 ← buf[i + 2]?
  let b1 ← buf[i + 1]?
  let b0 ← buf[i]?
  pure ((b3.val ||| (b2.val <<< 8) ||| (b1.val <<< 16) ||| (b0.val <<< 24)) % 2 ^ 32)

/-- The loop of `Reader::get_id`: `while (get_1b(i) != 0) { id.push_back(get_1b(i)); ++i; }`.
The fuel is the number of bytes left from `i`, so it runs out exactly when the next
read would leave the buffer. -/
def get_idLoop (buf : Buffer) : Nat → Nat → List Byte → Option (List Byte)
  | 0, _, _ => none
  | fuel + 1, i, id =>
    match get_1b buf i with
    | none => none
    | some b => if b ≠ 0 then get_idLoop buf fuel (i + 1) (id ++ [b]) else some id

/-- `Reader::get_id`. -/
def get_id (buf : Buffer) (i : Nat) : Option (List Byte) :=
  get_idLoop buf (buf.length - i) i []

/-! ## Node and program state (`src/main.cpp` lines 89-104) -/

structure Node where
  id_ : List Byte
  offset_ : Nat
  type_ : node_t
  deriving DecidableEq, Repr

/-- The mutable members of `Reader` together with the locals `nodes` and
`current_offset` of `main`. -/
structure State where
  clrplt_offset_ : Nat
  matplt_offsets_ : List Nat
  clrplt_size_ : Nat
  matplt_sizes_ : List Nat
  nodes : List Node
  current_offset : Nat
  deriving DecidableEq, Repr

/-- What one pass through a loop body does: `continue` with a new state, or `break`. -/
inductive Flow where
  | continue_ (s : State)
  | break_
  deriving DecidableEq, Repr

/-- Result of running a loop (or the whole program) with a fuel bound. -/
inductive Outcome (α : Type) where
  | done (a : α)
  | undef
  | running
  deriving DecidableEq, Repr

/-- Lines 106-107: emit the Database node and step over the header record. -/
def header (buf : Buffer) : Option State := do
  let id ← get_id buf (0 + id_offset)
  let len ← get_2b buf record_length_offset
  pure { clrplt_offset_ := 0, matplt_offsets_ := [], clrplt_size_ := 0, matplt_sizes_ := [],
         nodes := [⟨id, 0, node_t.DB⟩], current_offset := 0 + len }

/-- The statement `current_offset += reader.get_2b(current_offset + record_length_offset)`. -/
def advance (buf : Buffer) (s : State) : Option State := do
  let len ← get_2b buf (s.current_offset + record_length_offset)
  pure { s with current_offset := s.current_offset + len }

/-- Body of the first loop, lines 110-142. -/
def phase1Step (buf : Buffer) (s : State) : Option Flow := do
  let opcode ← get_2b buf s.current_offset
  if opcode = CLRPLT then
    let s1 := { s with clrplt_offset_ := s.current_offset }
    let size ← get_2b buf (s1.current_offset + record_length_offset)
    let s2 := { s1 with clrplt_size_ := size }
    pure (Flow.continue_ { s2 with current_offset := s2.current_offset + s2.clrplt_size_ })
  else if opcode = MATPLT then
    let s1 := { s with matplt_offsets_ := s.matplt_offsets_ ++ [s.current_offset] }
    let size ← get_2b buf (s1.current_offset + record_length_offset)
    let s2 := { s1 with matplt_sizes_ := s1.matplt_sizes_ ++ [size] }
    pure (Flow.continue_ { s2 with current_offset := s2.current_offset + size })
  else if opcode = LGTPLT then
    Flow.continue_ <$> advance buf s
  else if opcode = EPTPLT then
    Flow.continue_ <$> advance buf s
  else if opcode = VRXPLT then
    Flow.continue_ <$> advance buf s
  else if opcode = VRXCRN then
    Flow.continue_ <$> advance buf s
  else
    pure Flow.break_

/-- The statement `nodes.emplace_back(reader.get_id(current_offset + id_offset),
current_offset, type)`. -/
def emplace (buf : Buffer) (s : State) (type : node_t) : Option State := do
  let id ← get_id buf (s.current_offset + id_offset)
  pure { s with nodes := s.nodes ++ [⟨id, s.current_offset, type⟩] }

/-- The statement `nodes[nodes.size() - 1].id_ = v`; on an empty vector the index is
out of range and the behaviour undefined. -/
def setLastId (nodes : List Node) (v : List Byte) : Option (List Node) :=
  match nodes.getLast? with
  | none => none
  | some n => some (nodes.dropLast ++ [{ n with id_ := v }])

/-- Body of the second loop, lines 144-179. -/
def phase2Step (buf : Buffer) (s : State) : Option Flow := do
  let opcode ← get_2b buf s.current_offset
  if opcode = PUSHLV then
    Flow.continue_ <$> advance buf s
  else if opcode = POPLV then
    Flow.continue_ <$> advance buf s
  else if opcode = GROUP then
    Flow.continue_ <$> (emplace buf s node_t.GROUP >>= advance buf)
  else if opcode = OBJECT then
    Flow.continue_ <$> (emplace buf s node_t.OBJECT >>= advance buf)
  else if opcode = FACE then
    Flow.continue_ <$> (emplace buf s node_t.FACE >>= advance buf)
  else if opcode = VRXLST then
    Flow.continue_ <$> advance buf s
  else if opcode = LONGID then
    let id ← get_id buf (s.current_offset + id_offset)
    let nodes ← setLastId s.nodes id
    Flow.continue_ <$> advance buf { s with nodes := nodes }
  else
    pure Flow.break_

/-- A `while (true)` loop whose body is `step`, run for at most `fuel` passes. -/
def loop (step : State → Option Flow) : Nat → State → Outcome State
  | 0, _ => Outcome.running
  | fuel + 1, s =>
    match step s with
    | none => Outcome.undef
    | some Flow.break_ => Outcome.done s
    | some (Flow.continue_ s1) => loop step fuel s1

def phase1 (buf : Buffer) (fuel : Nat) (s : State) : Outcome State :=
  loop (phase1Step buf) fuel s

def phase2 (buf : Buffer) (fuel : Nat) (s : State) : Outcome State :=
  loop (phase2Step buf) fuel s

/-- Conversion of a `uint16_t` value to `int16_t` (line 192). -/
def toInt16 (v : Nat) : Int :=
  Int.bmod v (2 ^ 16)

/-- The expression `reader.get_4b(reader.clrplt_offset_ + first_color_palette_offset +
color_size * color_name_index)` of line 195; the product is a `uint32_t`, its second factor
a `uint16_t`. -/
def colorLookup (buf : Buffer) (clrplt_offset : Nat) (color_name_index : Nat) : Option Nat :=
  get_4b buf
    (clrplt_offset + first_color_palette_offset + (color_size * color_name_index) % 2 ^ 32)

/-- One line of the second report: id, color name index, color, material index. -/
structure Appearance where
  id_ : List Byte
  color_name_index : Nat
  color : Nat
  material_index : Int
  deriving DecidableEq, Repr

/-- The loop of lines 189-198 over the node list. -/
def faceReport (buf : Buffer) (clrplt_offset : Nat) : List Node → Option (List Appearance)
  | [] => some []
  | node :: rest =>
    if node.type_ = node_t.FACE then do
      let color_name_index ← get_2b buf (node.offset_ + color_offset)
      let material ← get_2b buf (node.offset_ + material_offset)
      let color ← colorLookup buf clrplt_offset color_name_index
      let tail ← faceReport buf clrplt_offset rest
      pure (⟨node.id_, color_name_index, color, toInt16 material⟩ :: tail)
    else
      faceReport buf clrplt_offset rest

/-- The scanning part of `main` (lines 102-179): header, first loop, second loop. -/
def scan (buf : Buffer) (fuel : Nat) : Outcome State :=
  match header buf with
  | none => Outcome.undef
  | some s0 =>
    match phase1 buf fuel s0 with
    | Outcome.done s1 => phase2 buf fuel s1
    | Outcome.undef => Outcome.undef
    | Outcome.running => Outcome.running

/-- The whole of `main` on a loaded buffer: the node table and the face report. -/
def run (buf : Buffer) (fuel : Nat) : Outcome (List Node × List Appearance) :=
  match scan buf fuel with
  | Outcome.done s =>
    match faceReport buf s.clrplt_offset_ s.nodes with
    | none => Outcome.undef
    | some report => Outcome.done (s.nodes, report)
  | Outcome.undef => Outcome.undef
  | Outcome.running => Outcome.running

/-! ## The record stream, as the specification describes it

A record is an opcode (two bytes), a declared length (two bytes at sub-offset 2) and a
payload; a phase walks the stream from its starting cursor, record by record, while the
opcode is one it recognises.  These definitions follow the specification's wording and are
what the loops above are compared with. -/

/-- A record met by a phase: where it starts, its opcode and its declared length. -/
structure Record where
  offset : Nat
  opcode : Nat
  length : Nat
  deriving DecidableEq, Repr

/-- Opcodes recognised by phase 1: Color-Palette, Material-Palette, Light-Palette,
Eyepoint/Trackplane-Palette, Vertex-Palette, Vertex-with-Color-and-Normal. -/
def preambleOpcodes : List Nat := [32, 113, 102, 83, 67, 69]

/-- Opcodes recognised by phase 2: Push-Level, Pop-Level, Group, Object, Face, Vertex-List,
Long-ID. -/
def hierarchyOpcodes : List Nat := [10, 11, 2, 4, 5, 72, 33]

/-- The records a phase recognising `ops` meets from cursor `o` on, in stream order (at
most `fuel` of them): it stops at the first opcode outside `ops` or unreadable field. -/
def records (buf : Buffer) (ops : List Nat) : Nat → Nat → List Record
  | 0, _ => []
  | fuel + 1, o =>
    match get_2b buf o, get_2b buf (o + 2) with
    | some op, some len =>
      if op ∈ ops then ⟨o, op, len⟩ :: records buf ops fuel (o + len) else []
    | _, _ => []

/-- The node kind a record creates: Group (2), Object (4), Face (5); none otherwise. -/
def nodeKind (op : Nat) : Option node_t :=
  if op = 2 then some node_t.GROUP
  else if op = 4 then some node_t.OBJECT
  else if op = 5 then some node_t.FACE
  else none

/-- Offset and kind of a node. -/
def shape (n : Node) : Nat × node_t := (n.offset_, n.type_)

/-- Offset and kind of the node a record creates, if it creates one. -/
def nodeOf (r : Record) : Option (Nat × node_t) :=
  (nodeKind r.opcode).map (fun t => (r.offset, t))

/-! ## A synthetic buffer

Header record of length 28 with id "DB-root"; a Color-Palette record of length 144 whose
entry 2 is AA BB CC DD; a Material-Palette record of length 8; a Group record of length 12
with id "G1"; a Face record of length 40 with id "F1", color name index 2 and material
index bytes FF FF; then the opcode 0, which no phase recognises. -/

def pad (n : Nat) : List Byte := List.replicate n 0

/-- The bytes of "DB-root". -/
def idDBroot : List Byte := [68, 66, 45, 114, 111, 111, 116]

/-- The bytes of "G1". -/
def idG1 : List Byte := [71, 49]

/-- The bytes of "F1". -/
def idF1 : List Byte := [70, 49]

def synthBuffer : Buffer :=
  -- offset 0: header, opcode 1, length 28, id at 4
  [0, 1, 0, 28] ++ idDBroot ++ [0] ++ pad 16
  -- offset 28: color palette, opcode 32, length 144, entry 2 at 28 + 132 + 8 = 168
  ++ [0, 32, 0, 144] ++ pad 136 ++ [0xAA, 0xBB, 0xCC, 0xDD]
  -- offset 172: material palette, opcode 113, length 8
  ++ [0, 113, 0, 8] ++ pad 4
  -- offset 180: group, opcode 2, length 12, id at 184
  ++ [0, 2, 0, 12] ++ idG1 ++ [0] ++ pad 5
  -- offset 192: face, opcode 5, length 40, id at 196, color index at 212, material at 222
  ++ [0, 5, 0, 40] ++ idF1 ++ [0] ++ pad 13 ++ [0, 2] ++ pad 8 ++ [0xFF, 0xFF] ++ pad 8
  -- offset 232: unrecognised opcode 0
  ++ [0, 0]

/-! ## A second buffer, with hierarchy records

Header of length 6 with an empty id; Push-Level; Group "g"; Long-ID "lg"; Face "f" of
length 32; Pop-Level; then the opcode 0. -/

def demoBuffer : Buffer :=
  -- offset 0: header, length 6, id at 4 is empty
  [0, 1, 0, 6, 0, 0]
  -- offset 6: push level, length 4
  ++ [0, 10, 0, 4]
  -- offset 10: group, length 8, id "g"
  ++ [0, 2, 0, 8, 103, 0, 0, 0]
  -- offset 18: long id, length 8, id "lg"
  ++ [0, 33, 0, 8, 108, 103, 0, 0]
  -- offset 26: face, length 32, id "f"
  ++ [0, 5, 0, 32, 102, 0] ++ pad 26
  -- offset 58: pop level, length 4
  ++ [0, 11, 0, 4]
  -- offset 62: unrecognised opcode 0
  ++ [0, 0]

/-- State of the scan of `demoBuffer` with the cursor at `o` and the nodes `ns`. -/
def demoState (ns : List Node) (o : Nat) : State :=
  { clrplt_offset_ := 0, matplt_offsets_ := [], clrplt_size_ := 0, matplt_sizes_ := [],
    nodes := ns, current_offset := o }

def demoDB : Node := ⟨[], 0, node_t.DB⟩

def demoGroup : Node := ⟨[103], 10, node_t.GROUP⟩

def demoGroupLong : Node := ⟨[108, 103], 10, node_t.GROUP⟩

def demoFace : Node := ⟨[102], 26, node_t.FACE⟩

/-- State of the scan of `synthBuffer` with color palette location `clr`, material palette
locations `mats`, nodes `ns` and cursor `o`. -/
def synthState (clr : Nat × Nat) (mats : List (Nat × Nat)) (ns : List Node) (o : Nat) :
    State :=
  { clrplt_offset_ := clr.1, matplt_offsets_ := mats.map Prod.fst, clrplt_size_ := clr.2,
    matplt_sizes_ := mats.map Prod.snd, nodes := ns, current_offset := o }

/-- State of the scan of `synthBuffer` after the header record. -/
def synthAfterHeader : State :=
  synthState (0, 0) [] [⟨idDBroot, 0, node_t.DB⟩] 28

/-- State of the scan of `synthBuffer` after the preamble. -/
def synthAfterPreamble : State :=
  synthState (28, 144) [(172, 8)] [⟨idDBroot, 0, node_t.DB⟩] 180

/-! ## Points of a scan, and further buffers -/

/-- The state after `n` passes through a loop body that all end in `continue`. -/
def passes (step : State → Option Flow) : Nat → State → Option State
  | 0, s => some s
  | n + 1, s =>
    match step s with
    | some (Flow.continue_ s1) => passes step n s1
    | _ => none

/-- The node list starts with a Database node at offset 0 and holds no other Database
node. -/
def DatabaseFirst : List Node → Prop
  | [] => False
  | n :: rest => n.type_ = node_t.DB ∧ n.offset_ = 0 ∧ ∀ m ∈ rest, m.type_ ≠ node_t.DB

instance decidableDatabaseFirst : (nodes : List Node) → Decidable (DatabaseFirst nodes)
  | [] => isFalse (fun h => h)
  | n :: rest =>
    inferInstanceAs
      (Decidable (n.type_ = node_t.DB ∧ n.offset_ = 0 ∧ ∀ m ∈ rest, m.type_ ≠ node_t.DB))

/-- Header of length 6 followed by a Push-Level record whose declared length is 0. -/
def zeroLengthBuffer : Buffer :=
  [0, 1, 0, 6, 0, 0] ++ [0, 10, 0, 0]

/-- A header record whose declared length is 0 (opcode 1, empty id). -/
def zeroHeaderBuffer : Buffer :=
  [0, 1, 0, 0, 0, 0]

/-- A header record that declares length 8 in a buffer of 6 bytes. -/
def shortBuffer : Buffer :=
  [0, 1, 0, 8, 0, 0]

/-- The layout of `synthBuffer` with the Face record's color name index set to `i`. -/
def synthBufferWithIndex (i : Byte) : Buffer :=
  [0, 1, 0, 28] ++ idDBroot ++ [0] ++ pad 16
  ++ [0, 32, 0, 144] ++ pad 136 ++ [0xAA, 0xBB, 0xCC, 0xDD]
  ++ [0, 113, 0, 8] ++ pad 4
  ++ [0, 2, 0, 12] ++ idG1 ++ [0] ++ pad 5
  ++ [0, 5, 0, 40] ++ idF1 ++ [0] ++ pad 13 ++ [0, i] ++ pad 8 ++ [0xFF, 0xFF] ++ pad 8
  ++ [0, 0]

/-- Header of length 6, two Color-Palette records of length 4 at offsets 6 and 10, then the
opcode 0. -/
def twoPalettesBuffer : Buffer :=
  [0, 1, 0, 6, 0, 0] ++ [0, 32, 0, 4] ++ [0, 32, 0, 4] ++ [0, 0]

/-! ## Reader: big-endian decoding -/

theorem shl_or_eq (hi lo n : Nat) (h : lo < 2 ^ n) : lo ||| (hi <<< n) = 2 ^ n * hi + lo := by
  rw [Nat.shiftLeft_eq, Nat.or_comm, Nat.mul_comm, ← Nat.mul_add_lt_is_or h]

theorem get_2b_eq (buf : Buffer) (i : Nat) (b0 b1 : Byte)
    (h0 : buf[i]? = some b0) (h1 : buf[i + 1]? = some b1) :
    get_2b buf i = some (256 * b0.val + b1.val) := by
  have hlt0 := b0.isLt
  have hlt1 := b1.isLt
  have e : b1.val ||| (b0.val <<< 8) = 2 ^ 8 * b0.val + b1.val :=
    shl_or_eq b0.val b1.val 8 (by omega)
  simp only [get_2b, h0, h1, Option.bind_eq_bind, Option.some_bind, Option.pure_def, e]
  congr 1
  omega

theorem get_4b_eq (buf : Buffer) (i : Nat) (b0 b1 b2 b3 : Byte)
    (h0 : buf[i]? = some b0) (h1 : buf[i + 1]? = some b1)
    (h2 : buf[i + 2]? = some b2) (h3 : buf[i + 3]? = some b3) :
    get_4b buf i = some (2 ^ 24 * b0.val + 2 ^ 16 * b1.val + 2 ^ 8 * b2.val + b3.val) := by
  have hlt0 := b0.isLt
  have hlt1 := b1.isLt
  have hlt2 := b2.isLt
  have hlt3 := b3.isLt
  have e1 : b3.val ||| (b2.val <<< 8) = 2 ^ 8 * b2.val + b3.val :=
    shl_or_eq b2.val b3.val 8 (by omega)
  have e2 : (2 ^ 8 * b2.val + b3.val) ||| (b1.val <<< 16)
      = 2 ^ 16 * b1.val + (2 ^ 8 * b2.val + b3.val) :=
    shl_or_eq b1.val _ 16 (by omega)
  have e3 : (2 ^ 16 * b1.val + (2 ^ 8 * b2.val + b3.val)) ||| (b0.val <<< 24)
      = 2 ^ 24 * b0.val + (2 ^ 16 * b1.val + (2 ^ 8 * b2.val + b3.val)) :=
    shl_or_eq b0.val _ 24 (by omega)
  simp only [get_4b, h0, h1, h2, h3, Option.bind_eq_bind, Option.some_bind, Option.pure_def,
    e1, e2, e3]
  congr 1
  omega

theorem get_2b_lt (buf : Buffer) (i v : Nat) (h : get_2b buf i = some v) : v < 65536 := by
  unfold get_2b at h
  cases h1 : buf[i + 1]? with
  | none => simp [h1] at h
  | some lo =>
    cases h0 : buf[i]? with
    | none => simp [h1, h0] at h
    | some hi =>
      simp only [h1, h0, Option.bind_eq_bind, Option.some_bind, Option.pure_def,
        Option.some.injEq] at h
      rw [← h]
      exact Nat.mod_lt _ (by norm_num)

/-- C9. With the bytes in range, `get_2b(i) = 256*b[i] + b[i+1]`, which is below 65536, and
`get_4b(i) = 2^24*b[i] + 2^16*b[i+1] + 2^8*b[i+2] + b[i+3] = 65536*get_2b(i) + get_2b(i+2)`:
both are the unsigned big-endian decoding of the bytes starting at `i`. -/
theorem get_2b_get_4b_big_endian (buf : Buffer) (i : Nat) :
    (∀ h : i + 1 < buf.length,
      get_2b buf i = some (256 * buf[i].val + buf[i + 1].val) ∧
      256 * buf[i].val + buf[i + 1].val < 65536) ∧
    (∀ h : i + 3 < buf.length,
      get_4b buf i = some (2 ^ 24 * buf[i].val + 2 ^ 16 * buf[i + 1].val
        + 2 ^ 8 * buf[i + 2].val + buf[i + 3].val) ∧
      ∃ hi lo, get_2b buf i = some hi ∧ get_2b buf (i + 2) = some lo ∧
        get_4b buf i = some (65536 * hi + lo)) := by
  refine ⟨fun h => ?_, fun h => ?_⟩
  · have e := get_2b_eq buf i buf[i] buf[i + 1] (List.getElem?_eq_getElem _)
      (List.getElem?_eq_getElem _)
    exact ⟨e, get_2b_lt buf i _ e⟩
  · have e4 := get_4b_eq buf i buf[i] buf[i + 1] buf[i + 2] buf[i + 3]
      (List.getElem?_eq_getElem _) (List.getElem?_eq_getElem _)
      (List.getElem?_eq_getElem _) (List.getElem?_eq_getElem _)
    have ea := get_2b_eq buf i buf[i] buf[i + 1] (List.getElem?_eq_getElem _)
      (List.getElem?_eq_getElem _)
    have eb := get_2b_eq buf (i + 2) buf[i + 2] buf[i + 3] (List.getElem?_eq_getElem _)
      (List.getElem?_eq_getElem _)
    refine ⟨e4, _, _, ea, eb, ?_⟩
    rw [e4]
    congr 1
    omega

theorem get_2b_get_4b_big_endian_witness :
    (get_2b [1, 2, 3, 4] 0 = some (256 * 1 + 2) ∧ 256 * 1 + 2 < 65536) ∧
    get_4b [1, 2, 3, 4] 0 = some (2 ^ 24 * 1 + 2 ^ 16 * 2 + 2 ^ 8 * 3 + 4) :=
  ⟨(get_2b_get_4b_big_endian [1, 2, 3, 4] 0).1 (by decide),
   ((get_2b_get_4b_big_endian [1, 2, 3, 4] 0).2 (by decide)).1⟩

/-! ## Reader: `get_id` -/

theorem get_idLoop_eq (buf : Buffer) (k : Nat) (hk : buf[k]? = some 0) :
    ∀ (fuel i : Nat) (acc : List Byte), i ≤ k → k - i < fuel →
      (∀ j, i ≤ j → j < k → buf[j]? ≠ some 0) →
      get_idLoop buf fuel i acc = some (acc ++ (buf.drop i).take (k - i)) := by
  intro fuel
  induction fuel with
  | zero => intro i acc _ h; omega
  | succ fuel ih =>
    intro i acc hik hfuel hmin
    have hklt : k < buf.length := by
      rcases List.getElem?_eq_some_iff.mp hk with ⟨h, _⟩
      exact h
    rcases Nat.eq_or_lt_of_le hik with heq | hlt
    · subst heq
      simp [get_idLoop, get_1b, hk]
    · have hi : i < buf.length := by omega
      have hne : buf[i] ≠ 0 := by
        intro h0
        exact hmin i (Nat.le_refl i) hlt (by rw [List.getElem?_eq_getElem hi, h0])
      have hstep : get_idLoop buf (fuel + 1) i acc
          = get_idLoop buf fuel (i + 1) (acc ++ [buf[i]]) := by
        simp [get_idLoop, get_1b, List.getElem?_eq_getElem hi, hne]
      rw [hstep, ih (i + 1) (acc ++ [buf[i]]) (by omega) (by omega)
        (fun j h1 h2 => hmin j (by omega) h2)]
      have hd : List.drop i buf = buf[i] :: List.drop (i + 1) buf :=
        List.drop_eq_getElem_cons hi
      have hki : k - i = (k - (i + 1)) + 1 := by omega
      rw [hd, hki, List.take_succ_cons, List.append_assoc]
      rfl

/-- C10. If `k` is the least position `j >= i` inside the buffer with `b[j] = 0`, then
`get_id(i)` returns exactly the bytes `b[i], ..., b[k-1]`: the result has length `k - i`, its
`j`-th byte is `b[i + j]`, it contains no NUL byte, and it is empty when `b[i] = 0`.  The
buffer is an argument that `get_id` only reads. -/
theorem get_id_bytes_before_first_nul (buf : Buffer) (i k : Nat) (hik : i ≤ k)
    (hk : buf[k]? = some 0) (hmin : ∀ j, i ≤ j → j < k → buf[j]? ≠ some 0) :
    ∃ id, get_id buf i = some id ∧ id = (buf.drop i).take (k - i) ∧ id.length = k - i ∧
      (∀ j, j < k - i → id[j]? = buf[i + j]?) ∧ (0 : Byte) ∉ id ∧
      (buf[i]? = some 0 → id = []) := by
  have hklt : k < buf.length := by
    rcases List.getElem?_eq_some_iff.mp hk with ⟨h, _⟩
    exact h
  have hget : get_id buf i = some ((buf.drop i).take (k - i)) := by
    unfold get_id
    rw [get_idLoop_eq buf k hk (buf.length - i) i [] hik (by omega) hmin]
    rfl
  have hidx : ∀ j, j < k - i → ((buf.drop i).take (k - i))[j]? = buf[i + j]? := by
    intro j hj
    rw [List.getElem?_take_of_lt hj, List.getElem?_drop]
  refine ⟨_, hget, rfl, ?_, hidx, ?_, ?_⟩
  · rw [List.length_take, List.length_drop]
    omega
  · intro hmem
    rcases List.getElem_of_mem hmem with ⟨j, hj, hj0⟩
    have hjlt : j < k - i := by
      rw [List.length_take, List.length_drop] at hj
      omega
    have h1 := hidx j hjlt
    rw [List.getElem?_eq_getElem hj, hj0] at h1
    exact hmin (i + j) (by omega) (by omega) h1.symm
  · intro h0
    have hki : k = i := by
      by_contra hne
      exact hmin i (Nat.le_refl i) (by omega) h0
    rw [hki, Nat.sub_self, List.take_zero]

theorem get_id_bytes_before_first_nul_witness :
    ∃ id, get_id [7, 71, 49, 0, 9] 1 = some id ∧
      id = (([7, 71, 49, 0, 9] : Buffer).drop 1).take (3 - 1) ∧ id.length = 3 - 1 ∧
      (∀ j, j < 3 - 1 → id[j]? = ([7, 71, 49, 0, 9] : Buffer)[1 + j]?) ∧ (0 : Byte) ∉ id ∧
      (([7, 71, 49, 0, 9] : Buffer)[1]? = some 0 → id = []) :=
  get_id_bytes_before_first_nul [7, 71, 49, 0, 9] 1 3 (by decide) (by decide)
    (by
      intro j h1 h2
      have hj : j = 1 ∨ j = 2 := by omega
      rcases hj with rfl | rfl <;> decide)

/-! ## Loops -/

theorem loop_done_add (step : State → Option Flow) (k : Nat) :
    ∀ (fuel : Nat) (s s' : State), loop step fuel s = Outcome.done s' →
      loop step (fuel + k) s = Outcome.done s' := by
  intro fuel
  induction fuel with
  | zero => intro s s' h; simp [loop] at h
  | succ fuel ih =>
    intro s s' h
    rw [Nat.add_right_comm]
    unfold loop at h ⊢
    cases hs : step s with
    | none => simp [hs] at h
    | some f =>
      cases f with
      | break_ => simpa [hs] using h
      | continue_ s1 =>
        simp only [hs] at h ⊢
        exact ih s1 s' h

theorem advance_eq (buf : Buffer) (s s' : State) (h : advance buf s = some s') :
    ∃ len, get_2b buf (s.current_offset + 2) = some len ∧
      s' = { s with current_offset := s.current_offset + len } := by
  unfold advance at h
  cases hl : get_2b buf (s.current_offset + record_length_offset) with
  | none => simp [hl] at h
  | some len =>
    simp only [hl, Option.bind_eq_bind, Option.some_bind, Option.pure_def,
      Option.some.injEq] at h
    exact ⟨len, hl, h.symm⟩

theorem emplace_eq (buf : Buffer) (s s' : State) (t : node_t) (h : emplace buf s t = some s') :
    ∃ id, get_id buf (s.current_offset + 4) = some id ∧
      s' = { s with nodes := s.nodes ++ [⟨id, s.current_offset, t⟩] } := by
  unfold emplace at h
  cases hl : get_id buf (s.current_offset + id_offset) with
  | none => simp [hl] at h
  | some id =>
    simp only [hl, Option.bind_eq_bind, Option.some_bind, Option.pure_def,
      Option.some.injEq] at h
    exact ⟨id, hl, h.symm⟩

theorem setLastId_eq (nodes nodes' : List Node) (v : List Byte)
    (h : setLastId nodes v = some nodes') :
    ∃ front last, nodes = front ++ [last] ∧ nodes' = front ++ [{ last with id_ := v }] := by
  unfold setLastId at h
  cases hl : nodes.getLast? with
  | none => simp [hl] at h
  | some n =>
    simp only [hl, Option.some.injEq] at h
    refine ⟨nodes.dropLast, n, ?_, h.symm⟩
    have hne : nodes ≠ [] := by
      intro he
      simp [he] at hl
    have h2 := List.dropLast_append_getLast hne
    rw [List.getLast?_eq_getLast _ hne] at hl
    simp only [Option.some.injEq] at hl
    rw [hl] at h2
    exact h2.symm

/-! ## One pass through the second loop -/

theorem phase2Step_continue (buf : Buffer) (s s' : State)
    (h : phase2Step buf s = some (Flow.continue_ s')) :
    ∃ op len, get_2b buf s.current_offset = some op ∧
      get_2b buf (s.current_offset + 2) = some len ∧ op ∈ hierarchyOpcodes ∧
      s' = { s with nodes := s'.nodes, current_offset := s.current_offset + len } ∧
      ((∃ t id, nodeKind op = some t ∧ get_id buf (s.current_offset + 4) = some id ∧
          s'.nodes = s.nodes ++ [⟨id, s.current_offset, t⟩]) ∨
       ((op = 10 ∨ op = 11 ∨ op = 72) ∧ s'.nodes = s.nodes) ∨
       (op = 33 ∧ ∃ id, get_id buf (s.current_offset + 4) = some id ∧
          setLastId s.nodes id = some s'.nodes)) := by
  unfold phase2Step at h
  cases hop : get_2b buf s.current_offset with
  | none => simp [hop] at h
  | some op =>
    simp only [hop, Option.bind_eq_bind, Option.some_bind] at h
    have hadv : ∀ s0 : State, s0.current_offset = s.current_offset →
        Flow.continue_ <$> advance buf s0 = some (Flow.continue_ s') →
        ∃ len, get_2b buf (s.current_offset + 2) = some len ∧
          s' = { s0 with current_offset := s.current_offset + len } := by
      intro s0 hs0 h0
      simp only [Option.map_eq_map, Option.map_eq_some', Flow.continue_.injEq] at h0
      rcases h0 with ⟨a, ha, rfl⟩
      rcases advance_eq buf s0 a ha with ⟨len, hlen, rfl⟩
      rw [hs0] at hlen
      exact ⟨len, hlen, by rw [hs0]⟩
    have hemp : ∀ t : node_t,
        Flow.continue_ <$> (emplace buf s t >>= advance buf) = some (Flow.continue_ s') →
        ∃ len id, get_2b buf (s.current_offset + 2) = some len ∧
          get_id buf (s.current_offset + 4) = some id ∧
          s' = { s with nodes := s.nodes ++ [⟨id, s.current_offset, t⟩],
                        current_offset := s.current_offset + len } := by
      intro t h0
      cases he : emplace buf s t with
      | none => simp [he] at h0
      | some s0 =>
        rcases emplace_eq buf s s0 t he with ⟨id, hid, rfl⟩
        simp only [he, Option.bind_eq_bind, Option.some_bind] at h0
        rcases hadv { s with nodes := s.nodes ++ [⟨id, s.current_offset, t⟩] } rfl h0 with
          ⟨len, hlen, rfl⟩
        exact ⟨len, id, hlen, hid, rfl⟩
    split_ifs at h with h1 h2 h3 h4 h5 h6 h7
    · rcases hadv s rfl h with ⟨len, hlen, rfl⟩
      exact ⟨op, len, rfl, hlen, by simp [h1, PUSHLV, hierarchyOpcodes], rfl,
        Or.inr (Or.inl ⟨Or.inl h1, rfl⟩)⟩
    · rcases hadv s rfl h with ⟨len, hlen, rfl⟩
      exact ⟨op, len, rfl, hlen, by simp [h2, POPLV, hierarchyOpcodes], rfl,
        Or.inr (Or.inl ⟨Or.inr (Or.inl h2), rfl⟩)⟩
    · rcases hemp _ h with ⟨len, id, hlen, hid, rfl⟩
      exact ⟨op, len, rfl, hlen, by simp [h3, GROUP, hierarchyOpcodes], rfl,
        Or.inl ⟨node_t.GROUP, id, by simp [h3, GROUP, nodeKind], hid, rfl⟩⟩
    · rcases hemp _ h with ⟨len, id, hlen, hid, rfl⟩
      exact ⟨op, len, rfl, hlen, by simp [h4, OBJECT, hierarchyOpcodes], rfl,
        Or.inl ⟨node_t.OBJECT, id, by simp [h4, OBJECT, nodeKind], hid, rfl⟩⟩
    · rcases hemp _ h with ⟨len, id, hlen, hid, rfl⟩
      exact ⟨op, len, rfl, hlen, by simp [h5, FACE, hierarchyOpcodes], rfl,
        Or.inl ⟨node_t.FACE, id, by simp [h5, FACE, nodeKind], hid, rfl⟩⟩
    · rcases hadv s rfl h with ⟨len, hlen, rfl⟩
      exact ⟨op, len, rfl, hlen, by simp [h6, VRXLST, hierarchyOpcodes], rfl,
        Or.inr (Or.inl ⟨Or.inr (Or.inr h6), rfl⟩)⟩
    · cases hid : get_id buf (s.current_offset + id_offset) with
      | none => simp [hid] at h
      | some id =>
        cases hset : setLastId s.nodes id with
        | none => simp [hid, hset] at h
        | some nodes =>
          simp only [hid, hset, Option.some_bind] at h
          rcases hadv { s with nodes := nodes } rfl h with ⟨len, hlen, rfl⟩
          exact ⟨op, len, rfl, hlen, by simp [h7, LONGID, hierarchyOpcodes], rfl,
            Or.inr (Or.inr ⟨h7, id, hid, hset⟩)⟩
    · simp at h

theorem map_continue_ne_break (x : Option State) :
    Flow.continue_ <$> x ≠ some Flow.break_ := by
  cases x <;> simp

theorem phase2Step_break (buf : Buffer) (s : State) (h : phase2Step buf s = some Flow.break_) :
    ∃ op, get_2b buf s.current_offset = some op ∧ op ∉ hierarchyOpcodes := by
  unfold phase2Step at h
  cases hop : get_2b buf s.current_offset with
  | none => simp [hop] at h
  | some op =>
    simp only [hop, Option.bind_eq_bind, Option.some_bind] at h
    split_ifs at h with h1 h2 h3 h4 h5 h6 h7
    · exact absurd h (map_continue_ne_break _)
    · exact absurd h (map_continue_ne_break _)
    · exact absurd h (map_continue_ne_break _)
    · exact absurd h (map_continue_ne_break _)
    · exact absurd h (map_continue_ne_break _)
    · exact absurd h (map_continue_ne_break _)
    · cases hid : get_id buf (s.current_offset + id_offset) with
      | none => simp [hid] at h
      | some id =>
        cases hset : setLastId s.nodes id with
        | none => simp [hid, hset] at h
        | some nodes =>
          simp only [hid, hset, Option.some_bind] at h
          exact absurd h (map_continue_ne_break _)
    · refine ⟨op, rfl, ?_⟩
      simp only [PUSHLV, POPLV, GROUP, OBJECT, FACE, VRXLST, LONGID] at h1 h2 h3 h4 h5 h6 h7
      simp [hierarchyOpcodes, h1, h2, h3, h4, h5, h6, h7]

/-! ## The second loop against the record stream -/

theorem setLastId_shape (nodes nodes' : List Node) (v : List Byte)
    (h : setLastId nodes v = some nodes') : nodes'.map shape = nodes.map shape := by
  rcases setLastId_eq nodes nodes' v h with ⟨front, last, rfl, rfl⟩
  simp [shape]

theorem phase2Step_shape (buf : Buffer) (s s' : State)
    (h : phase2Step buf s = some (Flow.continue_ s')) :
    ∃ op len, get_2b buf s.current_offset = some op ∧
      get_2b buf (s.current_offset + 2) = some len ∧ op ∈ hierarchyOpcodes ∧
      s'.current_offset = s.current_offset + len ∧
      s'.nodes.map shape
        = s.nodes.map shape ++ (nodeOf ⟨s.current_offset, op, len⟩).toList := by
  rcases phase2Step_continue buf s s' h with ⟨op, len, hop, hlen, hmem, hs', hcase⟩
  refine ⟨op, len, hop, hlen, hmem, by rw [hs'], ?_⟩
  rcases hcase with ⟨t, id, ht, _, hn⟩ | ⟨hskip, hn⟩ | ⟨hlong, id, _, hset⟩
  · rw [hn]
    simp [nodeOf, ht, shape]
  · rw [hn]
    rcases hskip with rfl | rfl | rfl <;> simp [nodeOf, nodeKind]
  · rw [setLastId_shape _ _ _ hset, hlong]
    simp [nodeOf, nodeKind]

theorem phase2_shape (buf : Buffer) :
    ∀ (fuel : Nat) (s s' : State), phase2 buf fuel s = Outcome.done s' →
      s'.nodes.map shape = s.nodes.map shape
        ++ (records buf hierarchyOpcodes fuel s.current_offset).filterMap nodeOf := by
  intro fuel
  induction fuel with
  | zero => intro s s' h; simp [phase2, loop] at h
  | succ fuel ih =>
    intro s s' h
    unfold phase2 loop at h
    cases hs : phase2Step buf s with
    | none => simp [hs] at h
    | some f =>
      cases f with
      | break_ =>
        simp only [hs, Outcome.done.injEq] at h
        rcases phase2Step_break buf s hs with ⟨op, hop, hnot⟩
        subst h
        unfold records
        rw [hop]
        cases get_2b buf (s.current_offset + 2) <;> simp [hnot]
      | continue_ s1 =>
        simp only [hs] at h
        rcases phase2Step_shape buf s s1 hs with ⟨op, len, hop, hlen, hmem, hcur, hsh⟩
        have h1 := ih s1 s' h
        unfold records
        rw [hop, hlen]
        simp only [hmem, if_true]
        rw [h1, hsh, hcur, List.filterMap_cons]
        cases nodeOf ⟨s.current_offset, op, len⟩ <;> simp

/-! ## One pass through the first loop -/

theorem phase1Step_continue (buf : Buffer) (s s' : State)
    (h : phase1Step buf s = some (Flow.continue_ s')) :
    ∃ op len, get_2b buf s.current_offset = some op ∧
      get_2b buf (s.current_offset + 2) = some len ∧ op ∈ preambleOpcodes ∧
      s' = { clrplt_offset_ := if op = 32 then s.current_offset else s.clrplt_offset_,
             clrplt_size_ := if op = 32 then len else s.clrplt_size_,
             matplt_offsets_ :=
               if op = 113 then s.matplt_offsets_ ++ [s.current_offset] else s.matplt_offsets_,
             matplt_sizes_ := if op = 113 then s.matplt_sizes_ ++ [len] else s.matplt_sizes_,
             nodes := s.nodes,
             current_offset := s.current_offset + len } := by
  unfold phase1Step at h
  cases hop : get_2b buf s.current_offset with
  | none => simp [hop] at h
  | some op =>
    simp only [hop, Option.bind_eq_bind, Option.some_bind] at h
    have hadv : Flow.continue_ <$> advance buf s = some (Flow.continue_ s') →
        ∃ len, get_2b buf (s.current_offset + 2) = some len ∧
          s' = { s with current_offset := s.current_offset + len } := by
      intro h0
      simp only [Option.map_eq_map, Option.map_eq_some', Flow.continue_.injEq] at h0
      rcases h0 with ⟨a, ha, rfl⟩
      exact advance_eq buf s a ha
    split_ifs at h with h1 h2 h3 h4 h5 h6
    · cases hl : get_2b buf (s.current_offset + record_length_offset) with
      | none => simp [hl] at h
      | some len =>
        simp only [hl, Option.some_bind, Option.pure_def, Option.some.injEq,
          Flow.continue_.injEq] at h
        refine ⟨op, len, rfl, hl, by simp [h1, CLRPLT, preambleOpcodes], ?_⟩
        rw [← h]
        simp [h1, CLRPLT]
    · cases hl : get_2b buf (s.current_offset + record_length_offset) with
      | none => simp [hl] at h
      | some len =>
        simp only [hl, Option.some_bind, Option.pure_def, Option.some.injEq,
          Flow.continue_.injEq] at h
        refine ⟨op, len, rfl, hl, by simp [h2, MATPLT, preambleOpcodes], ?_⟩
        rw [← h]
        simp [h2, MATPLT]
    · rcases hadv h with ⟨len, hlen, rfl⟩
      exact ⟨op, len, rfl, hlen, by simp [h3, LGTPLT, preambleOpcodes], by simp [h3, LGTPLT]⟩
    · rcases hadv h with ⟨len, hlen, rfl⟩
      exact ⟨op, len, rfl, hlen, by simp [h4, EPTPLT, preambleOpcodes], by simp [h4, EPTPLT]⟩
    · rcases hadv h with ⟨len, hlen, rfl⟩
      exact ⟨op, len, rfl, hlen, by simp [h5, VRXPLT, preambleOpcodes], by simp [h5, VRXPLT]⟩
    · rcases hadv h with ⟨len, hlen, rfl⟩
      exact ⟨op, len, rfl, hlen, by simp [h6, VRXCRN, preambleOpcodes], by simp [h6, VRXCRN]⟩
    · simp at h

theorem phase1Step_break (buf : Buffer) (s : State) (h : phase1Step buf s = some Flow.break_) :
    ∃ op, get_2b buf s.current_offset = some op ∧ op ∉ preambleOpcodes := by
  unfold phase1Step at h
  cases hop : get_2b buf s.current_offset with
  | none => simp [hop] at h
  | some op =>
    simp only [hop, Option.bind_eq_bind, Option.some_bind] at h
    split_ifs at h with h1 h2 h3 h4 h5 h6
    · cases hl : get_2b buf (s.current_offset + record_length_offset) <;> simp [hl] at h
    · cases hl : get_2b buf (s.current_offset + record_length_offset) <;> simp [hl] at h
    · exact absurd h (map_continue_ne_break _)
    · exact absurd h (map_continue_ne_break _)
    · exact absurd h (map_continue_ne_break _)
    · exact absurd h (map_continue_ne_break _)
    · refine ⟨op, rfl, ?_⟩
      simp only [CLRPLT, MATPLT, LGTPLT, EPTPLT, VRXPLT, VRXCRN] at h1 h2 h3 h4 h5 h6
      simp [preambleOpcodes, h1, h2, h3, h4, h5, h6]

/-! ## The first loop against the record stream -/

/-- What phase 1 leaves behind, in terms of the records it met. -/
theorem phase1_effect (buf : Buffer) :
    ∀ (fuel : Nat) (s s' : State), phase1 buf fuel s = Outcome.done s' →
      s'.nodes = s.nodes ∧
      s'.matplt_offsets_ = s.matplt_offsets_ ++
        ((records buf preambleOpcodes fuel s.current_offset).filter
          (fun r => r.opcode = 113)).map Record.offset ∧
      s'.matplt_sizes_ = s.matplt_sizes_ ++
        ((records buf preambleOpcodes fuel s.current_offset).filter
          (fun r => r.opcode = 113)).map Record.length ∧
      (s'.clrplt_offset_, s'.clrplt_size_) =
        ((((records buf preambleOpcodes fuel s.current_offset).filter
          (fun r => r.opcode = 32)).getLast?).map (fun r => (r.offset, r.length))).getD
          (s.clrplt_offset_, s.clrplt_size_) ∧
      s'.current_offset = s.current_offset +
        ((records buf preambleOpcodes fuel s.current_offset).map Record.length).sum ∧
      ∃ op, get_2b buf s'.current_offset = some op ∧ op ∉ preambleOpcodes := by
  intro fuel
  induction fuel with
  | zero => intro s s' h; simp [phase1, loop] at h
  | succ fuel ih =>
    intro s s' h
    unfold phase1 loop at h
    cases hs : phase1Step buf s with
    | none => simp [hs] at h
    | some f =>
      cases f with
      | break_ =>
        simp only [hs, Outcome.done.injEq] at h
        rcases phase1Step_break buf s hs with ⟨op, hop, hnot⟩
        subst h
        have hrec : records buf preambleOpcodes (fuel + 1) s.current_offset = [] := by
          unfold records
          rw [hop]
          cases get_2b buf (s.current_offset + 2) <;> simp [hnot]
        rw [hrec]
        simpa using ⟨op, hop, hnot⟩
      | continue_ s1 =>
        simp only [hs] at h
        rcases phase1Step_continue buf s s1 hs with ⟨op, len, hop, hlen, hmem, hs1⟩
        rcases ih s1 s' h with ⟨hn, hmo, hms, hclr, hcur, hbrk⟩
        have hc1 : s1.current_offset = s.current_offset + len := by rw [hs1]
        have hrec : records buf preambleOpcodes (fuel + 1) s.current_offset
            = ⟨s.current_offset, op, len⟩
              :: records buf preambleOpcodes fuel s1.current_offset := by
          conv_lhs => unfold records
          rw [hop, hlen, hc1]
          simp only [hmem, if_true]
        rw [hrec]
        refine ⟨?_, ?_, ?_, ?_, ?_, hbrk⟩
        · rw [hn, hs1]
        · rw [hmo, hs1]
          by_cases h113 : op = 113 <;> simp [h113, List.filter_cons]
        · rw [hms, hs1]
          by_cases h113 : op = 113 <;> simp [h113, List.filter_cons]
        · rw [hclr, hs1]
          by_cases h32 : op = 32
          · simp only [h32, if_true, List.filter_cons, decide_True, List.getLast?_cons]
            cases ((records buf preambleOpcodes fuel (s.current_offset + len)).filter
              (fun r => r.opcode = 32)).getLast? <;> simp
          · simp [h32, List.filter_cons]
        · rw [hcur, hc1]
          simp [Nat.add_assoc]

/-! ## Header and whole scan -/

theorem header_eq (buf : Buffer) (s : State) (h : header buf = some s) :
    ∃ id len, get_id buf 4 = some id ∧ get_2b buf 2 = some len ∧
      s = { clrplt_offset_ := 0, matplt_offsets_ := [], clrplt_size_ := 0,
            matplt_sizes_ := [], nodes := [⟨id, 0, node_t.DB⟩], current_offset := len } := by
  unfold header at h
  simp only [id_offset, record_length_offset, Nat.zero_add] at h
  cases hid : get_id buf 4 with
  | none => simp [hid] at h
  | some id =>
    cases hl : get_2b buf 2 with
    | none => simp [hid, hl] at h
    | some len =>
      simp only [hid, hl, Option.bind_eq_bind, Option.some_bind, Option.pure_def,
        Option.some.injEq] at h
      exact ⟨id, len, rfl, rfl, h.symm⟩

theorem scan_done (buf : Buffer) (fuel : Nat) (s : State) (h : scan buf fuel = Outcome.done s) :
    ∃ s0 s1, header buf = some s0 ∧ phase1 buf fuel s0 = Outcome.done s1 ∧
      phase2 buf fuel s1 = Outcome.done s := by
  unfold scan at h
  cases h0 : header buf with
  | none => simp [h0] at h
  | some s0 =>
    simp only [h0] at h
    cases h1 : phase1 buf fuel s0 with
    | done s1 =>
      simp only [h1] at h
      exact ⟨s0, s1, rfl, h1, h⟩
    | undef => simp [h1] at h
    | running => simp [h1] at h

theorem scan_done_add (buf : Buffer) (fuel k : Nat) (s : State)
    (h : scan buf fuel = Outcome.done s) : scan buf (fuel + k) = Outcome.done s := by
  rcases scan_done buf fuel s h with ⟨s0, s1, h0, h1, h2⟩
  unfold scan
  unfold phase1 at h1
  unfold phase2 at h2
  simp only [h0, phase1, phase2, loop_done_add _ k fuel s0 s1 h1,
    loop_done_add _ k fuel s1 s h2]

theorem run_done_add (buf : Buffer) (fuel k : Nat) (r : List Node × List Appearance)
    (h : run buf fuel = Outcome.done r) : run buf (fuel + k) = Outcome.done r := by
  unfold run at h ⊢
  cases hs : scan buf fuel with
  | done s =>
    rw [scan_done_add buf fuel k s hs]
    simpa [hs] using h
  | undef => simp [hs] at h
  | running => simp [hs] at h

/-! ## Claims about the second loop -/

/-- C1. A Group (2), Object (4) or Face (5) record processed in phase 2 at cursor `o`
appends exactly one node, with id `get_id(o + 4)`, offset `o` and the kind of the record;
Push-Level (10), Pop-Level (11) and Vertex-List (72) records leave the node list as it is.
Hence, when the scan completes, the offsets and kinds of the final node list are those of
the Database node followed by one node per Group/Object/Face record that phase 2 met, in
stream order. -/
theorem phase2_one_node_per_record (buf : Buffer) :
    (∀ (s s' : State) (op : Nat), get_2b buf s.current_offset = some op →
        phase2Step buf s = some (Flow.continue_ s') →
        (∀ t, nodeKind op = some t → ∃ id, get_id buf (s.current_offset + 4) = some id ∧
            s'.nodes = s.nodes ++ [⟨id, s.current_offset, t⟩]) ∧
        (op = 10 ∨ op = 11 ∨ op = 72 → s'.nodes = s.nodes)) ∧
    (∀ (fuel : Nat) (s : State), scan buf fuel = Outcome.done s →
        ∃ s0 s1, header buf = some s0 ∧ phase1 buf fuel s0 = Outcome.done s1 ∧
          s.nodes.map shape = (0, node_t.DB) ::
            (records buf hierarchyOpcodes fuel s1.current_offset).filterMap nodeOf) := by
  refine ⟨?_, ?_⟩
  · intro s s' op hop hstep
    rcases phase2Step_continue buf s s' hstep with ⟨op', len, hop', _, _, _, hcase⟩
    have hopeq : op' = op := by
      rw [hop] at hop'
      exact (Option.some.inj hop').symm
    subst hopeq
    refine ⟨?_, ?_⟩
    · intro t ht
      rcases hcase with ⟨t', id, ht', hid, hn⟩ | ⟨hskip, _⟩ | ⟨hlong, _⟩
      · rw [ht] at ht'
        cases ht'
        exact ⟨id, hid, hn⟩
      · rcases hskip with rfl | rfl | rfl <;> simp [nodeKind] at ht
      · subst hlong
        simp [nodeKind] at ht
    · intro hskip
      rcases hcase with ⟨t', id, ht', _, _⟩ | ⟨_, hn⟩ | ⟨hlong, _⟩
      · rcases hskip with rfl | rfl | rfl <;> simp [nodeKind] at ht'
      · exact hn
      · subst hlong
        omega
  · intro fuel s h
    rcases scan_done buf fuel s h with ⟨s0, s1, h0, h1, h2⟩
    refine ⟨s0, s1, h0, h1, ?_⟩
    rcases header_eq buf s0 h0 with ⟨id, len, _, _, hs0⟩
    have hn1 := (phase1_effect buf fuel s0 s1 h1).1
    rw [phase2_shape buf fuel s1 s h2, hn1, hs0]
    simp [shape]

set_option maxRecDepth 100000 in
theorem phase2_one_node_per_record_witness :
    (∃ id, get_id demoBuffer ((demoState [demoDB] 10).current_offset + 4) = some id ∧
        (demoState [demoDB, demoGroup] 18).nodes
          = (demoState [demoDB] 10).nodes
            ++ [⟨id, (demoState [demoDB] 10).current_offset, node_t.GROUP⟩]) ∧
    (demoState [demoDB] 10).nodes = (demoState [demoDB] 6).nodes ∧
    (∃ s0 s1, header demoBuffer = some s0 ∧ phase1 demoBuffer 6 s0 = Outcome.done s1 ∧
        (demoState [demoDB, demoGroupLong, demoFace] 62).nodes.map shape = (0, node_t.DB) ::
          (records demoBuffer hierarchyOpcodes 6 s1.current_offset).filterMap nodeOf) :=
  ⟨((phase2_one_node_per_record demoBuffer).1 (demoState [demoDB] 10)
      (demoState [demoDB, demoGroup] 18) 2 (by decide) (by decide)).1 node_t.GROUP
      (by decide),
   ((phase2_one_node_per_record demoBuffer).1 (demoState [demoDB] 6)
      (demoState [demoDB] 10) 10 (by decide) (by decide)).2 (by decide),
   (phase2_one_node_per_record demoBuffer).2 6
      (demoState [demoDB, demoGroupLong, demoFace] 62) (by decide)⟩

/-- C2. When a Long-ID record (33) at offset `p` immediately follows a Group/Object/Face
record, processing it sets the id of the node that record created to `get_id(p + 4)` and
changes nothing else: the number of nodes, every other node, every node's offset and kind,
and the palette locations are as before. -/
theorem longid_renames_only_preceding_node (buf : Buffer) (s s1 s2 : State) (op : Nat)
    (t : node_t) (hop : get_2b buf s.current_offset = some op) (ht : nodeKind op = some t)
    (h1 : phase2Step buf s = some (Flow.continue_ s1))
    (hp : get_2b buf s1.current_offset = some 33)
    (h2 : phase2Step buf s1 = some (Flow.continue_ s2)) :
    ∃ old new, get_id buf (s1.current_offset + 4) = some new ∧
      s1.nodes = s.nodes ++ [⟨old, s.current_offset, t⟩] ∧
      s2.nodes = s.nodes ++ [⟨new, s.current_offset, t⟩] ∧
      s2.nodes.length = s1.nodes.length ∧
      s2.nodes.map shape = s1.nodes.map shape ∧
      (∀ j, j < s.nodes.length → s2.nodes[j]? = s1.nodes[j]?) ∧
      s2.clrplt_offset_ = s1.clrplt_offset_ ∧ s2.clrplt_size_ = s1.clrplt_size_ ∧
      s2.matplt_offsets_ = s1.matplt_offsets_ ∧ s2.matplt_sizes_ = s1.matplt_sizes_ := by
  rcases phase2Step_continue buf s s1 h1 with ⟨op', _, hop', _, _, _, hcase1⟩
  have hopeq : op' = op := by
    rw [hop] at hop'
    exact (Option.some.inj hop').symm
  subst hopeq
  have hn1 : ∃ old, s1.nodes = s.nodes ++ [⟨old, s.current_offset, t⟩] := by
    rcases hcase1 with ⟨t', id, ht', _, hn⟩ | ⟨hskip, _⟩ | ⟨hlong, _⟩
    · rw [ht] at ht'
      cases ht'
      exact ⟨id, hn⟩
    · rcases hskip with rfl | rfl | rfl <;> simp [nodeKind] at ht
    · subst hlong
      simp [nodeKind] at ht
  rcases hn1 with ⟨old, hn1⟩
  rcases phase2Step_continue buf s1 s2 h2 with ⟨op2, len2, hop2, _, _, hs2, hcase2⟩
  have hop2eq : op2 = 33 := by
    rw [hp] at hop2
    exact (Option.some.inj hop2).symm
  subst hop2eq
  have hset : ∃ new, get_id buf (s1.current_offset + 4) = some new ∧
      setLastId s1.nodes new = some s2.nodes := by
    rcases hcase2 with ⟨t', _, ht', _, _⟩ | ⟨hskip, _⟩ | ⟨_, id, hid, hset⟩
    · simp [nodeKind] at ht'
    · omega
    · exact ⟨id, hid, hset⟩
  rcases hset with ⟨new, hnew, hset⟩
  rcases setLastId_eq _ _ _ hset with ⟨front, last, hfront, hn2⟩
  rw [hn1] at hfront
  have hsplit := List.append_inj' hfront rfl
  have hf : front = s.nodes := hsplit.1.symm
  have hl : last = ⟨old, s.current_offset, t⟩ := by
    have := hsplit.2
    simp only [List.cons.injEq, and_true] at this
    exact this.symm
  subst hf hl
  have hn2' : s2.nodes = s.nodes ++ [⟨new, s.current_offset, t⟩] := hn2
  refine ⟨old, new, hnew, hn1, hn2', ?_, ?_, ?_, ?_, ?_, ?_, ?_⟩
  · rw [hn1, hn2']
    simp
  · rw [hn1, hn2']
    simp [shape]
  · intro j hj
    rw [hn1, hn2', List.getElem?_append_left hj, List.getElem?_append_left hj]
  · rw [hs2]
  · rw [hs2]
  · rw [hs2]
  · rw [hs2]

set_option maxRecDepth 100000 in
theorem longid_renames_only_preceding_node_witness :
    ∃ old new, get_id demoBuffer ((demoState [demoDB, demoGroup] 18).current_offset + 4)
        = some new ∧
      (demoState [demoDB, demoGroup] 18).nodes = (demoState [demoDB] 10).nodes
        ++ [⟨old, (demoState [demoDB] 10).current_offset, node_t.GROUP⟩] ∧
      (demoState [demoDB, demoGroupLong] 26).nodes = (demoState [demoDB] 10).nodes
        ++ [⟨new, (demoState [demoDB] 10).current_offset, node_t.GROUP⟩] ∧
      (demoState [demoDB, demoGroupLong] 26).nodes.length
        = (demoState [demoDB, demoGroup] 18).nodes.length ∧
      (demoState [demoDB, demoGroupLong] 26).nodes.map shape
        = (demoState [demoDB, demoGroup] 18).nodes.map shape ∧
      (∀ j, j < (demoState [demoDB] 10).nodes.length →
        (demoState [demoDB, demoGroupLong] 26).nodes[j]?
          = (demoState [demoDB, demoGroup] 18).nodes[j]?) ∧
      (demoState [demoDB, demoGroupLong] 26).clrplt_offset_
        = (demoState [demoDB, demoGroup] 18).clrplt_offset_ ∧
      (demoState [demoDB, demoGroupLong] 26).clrplt_size_
        = (demoState [demoDB, demoGroup] 18).clrplt_size_ ∧
      (demoState [demoDB, demoGroupLong] 26).matplt_offsets_
        = (demoState [demoDB, demoGroup] 18).matplt_offsets_ ∧
      (demoState [demoDB, demoGroupLong] 26).matplt_sizes_
        = (demoState [demoDB, demoGroup] 18).matplt_sizes_ :=
  longid_renames_only_preceding_node demoBuffer (demoState [demoDB] 10)
    (demoState [demoDB, demoGroup] 18) (demoState [demoDB, demoGroupLong] 26) 2
    node_t.GROUP (by decide) (by decide) (by decide) (by decide) (by decide)

/-! ## Claims about the header and the first loop -/

theorem phase1Step_of_not_mem (buf : Buffer) (s : State) (op : Nat)
    (hop : get_2b buf s.current_offset = some op) (hnot : op ∉ preambleOpcodes) :
    phase1Step buf s = some Flow.break_ := by
  simp only [preambleOpcodes, List.mem_cons, List.mem_singleton, not_or, List.mem_nil_iff,
    or_false] at hnot
  rcases hnot with ⟨h1, h2, h3, h4, h5, h6⟩
  simp [phase1Step, hop, CLRPLT, MATPLT, LGTPLT, EPTPLT, VRXPLT, VRXCRN, h1, h2, h3, h4, h5,
    h6]

/-- C6. If the header's length field (bytes 2..3) is `L`, then after the Database node is
emitted and the header stepped over the cursor is exactly `L`; the Database node is the only
node, with offset 0 and id `get_id(4)`; and the first pass of phase 1 reads its opcode at
offset `L` (an unreadable opcode there is an out-of-range read, an opcode there outside the
preamble set ends phase 1). -/
theorem header_cursor_is_declared_length (buf : Buffer) (L : Nat) (s : State)
    (hL : get_2b buf 2 = some L) (h : header buf = some s) :
    s.current_offset = L ∧
    (∃ id, get_id buf 4 = some id ∧ s.nodes = [⟨id, 0, node_t.DB⟩]) ∧
    (get_2b buf L = none → phase1Step buf s = none) ∧
    (∀ op, get_2b buf L = some op → op ∉ preambleOpcodes →
      phase1Step buf s = some Flow.break_) ∧
    (∀ op len, get_2b buf L = some op → get_2b buf (L + 2) = some len →
      op ∈ preambleOpcodes → ∃ s1, phase1Step buf s = some (Flow.continue_ s1) ∧
        s1.current_offset = L + len) := by
  rcases header_eq buf s h with ⟨id, len, hid, hlen, hs⟩
  have hLlen : len = L := by
    rw [hL] at hlen
    exact (Option.some.inj hlen).symm
  subst hLlen
  have hcur : s.current_offset = len := by rw [hs]
  refine ⟨hcur, ⟨id, hid, by rw [hs]⟩, ?_, ?_, ?_⟩
  · intro hnone
    simp [phase1Step, hcur, hnone]
  · intro op hop hnot
    exact phase1Step_of_not_mem buf s op (by rw [hcur]; exact hop) hnot
  · intro op len' hop hlen' hmem
    simp only [preambleOpcodes, List.mem_cons, List.mem_singleton, List.mem_nil_iff,
      or_false] at hmem
    rcases hmem with rfl | rfl | rfl | rfl | rfl | rfl <;>
      simp [phase1Step, advance, hcur, hop, hlen', record_length_offset, CLRPLT, MATPLT,
        LGTPLT, EPTPLT, VRXPLT, VRXCRN]

set_option maxRecDepth 100000 in
theorem header_cursor_is_declared_length_witness :
    synthAfterHeader.current_offset = 28 ∧
    (∃ id, get_id synthBuffer 4 = some id ∧
      synthAfterHeader.nodes = [⟨id, 0, node_t.DB⟩]) ∧
    (∃ s1, phase1Step synthBuffer synthAfterHeader
        = some (Flow.continue_ s1) ∧ s1.current_offset = 28 + 144) ∧
    (demoState [demoDB] 6).current_offset = 6 ∧
    phase1Step demoBuffer (demoState [demoDB] 6) = some Flow.break_ :=
  ⟨(header_cursor_is_declared_length synthBuffer 28
      synthAfterHeader (by decide) (by decide)).1,
   (header_cursor_is_declared_length synthBuffer 28
      synthAfterHeader (by decide) (by decide)).2.1,
   (header_cursor_is_declared_length synthBuffer 28
      synthAfterHeader (by decide)
      (by decide)).2.2.2.2 32 144 (by decide) (by decide) (by decide),
   (header_cursor_is_declared_length demoBuffer 6 (demoState [demoDB] 6) (by decide)
      (by decide)).1,
   (header_cursor_is_declared_length demoBuffer 6 (demoState [demoDB] 6) (by decide)
      (by decide)).2.2.2.1 10 (by decide) (by decide)⟩

/-! ## Offsets along the record stream -/

theorem records_succ (buf : Buffer) (ops : List Nat) (fuel o : Nat) :
    records buf ops (fuel + 1) o =
      match get_2b buf o, get_2b buf (o + 2) with
      | some op, some len =>
        if op ∈ ops then ⟨o, op, len⟩ :: records buf ops fuel (o + len) else []
      | _, _ => [] := by
  rw [records]

theorem records_cases (buf : Buffer) (ops : List Nat) (fuel o : Nat) :
    records buf ops (fuel + 1) o = [] ∨
    ∃ op len, get_2b buf o = some op ∧ get_2b buf (o + 2) = some len ∧ op ∈ ops ∧
      records buf ops (fuel + 1) o = ⟨o, op, len⟩ :: records buf ops fuel (o + len) := by
  rw [records_succ]
  cases hop : get_2b buf o with
  | none => left; rfl
  | some op =>
    cases hlen : get_2b buf (o + 2) with
    | none => left; rfl
    | some len =>
      by_cases hmem : op ∈ ops
      · right
        exact ⟨op, len, rfl, rfl, hmem, by simp [hmem]⟩
      · left
        simp [hmem]

theorem records_increasing (buf : Buffer) (ops : List Nat) :
    ∀ (fuel o : Nat), (∀ r ∈ records buf ops fuel o, 0 < r.length) →
      (∀ r ∈ records buf ops fuel o, o ≤ r.offset) ∧
      (records buf ops fuel o).Pairwise (fun a b => a.offset < b.offset) := by
  intro fuel
  induction fuel with
  | zero => intro o _; simp [records]
  | succ fuel ih =>
    intro o hpos
    rcases records_cases buf ops fuel o with hnil | ⟨op, len, _, _, _, hcons⟩
    · rw [hnil]
      simp
    · rw [hcons] at hpos ⊢
      have hlen : 0 < len := hpos ⟨o, op, len⟩ (List.mem_cons_self _ _)
      rcases ih (o + len) (fun r hr => hpos r (List.mem_cons_of_mem _ hr)) with ⟨hge, hpw⟩
      refine ⟨?_, ?_⟩
      · intro r hr
        rcases List.mem_cons.mp hr with rfl | hr'
        · exact Nat.le_refl _
        · have := hge r hr'
          omega
      · refine List.Pairwise.cons ?_ hpw
        intro r hr
        have := hge r hr
        show o < r.offset
        omega

/-- C7. If phase 2 completes and every record it processed has a positive declared length,
the nodes it collected have strictly increasing offsets in collection order: a node appended
before another has the smaller offset. -/
theorem phase2_offsets_strictly_increase (buf : Buffer) (fuel : Nat) (s s' : State)
    (h : phase2 buf fuel s = Outcome.done s')
    (hpos : ∀ r ∈ records buf hierarchyOpcodes fuel s.current_offset, 0 < r.length) :
    (s'.nodes.drop s.nodes.length).Pairwise (fun a b => a.offset_ < b.offset_) := by
  have hsh := phase2_shape buf fuel s s' h
  have hdrop : (s'.nodes.drop s.nodes.length).map shape
      = (records buf hierarchyOpcodes fuel s.current_offset).filterMap nodeOf := by
    rw [List.map_drop, hsh]
    exact List.drop_left' (by simp)
  have hpw := (records_increasing buf hierarchyOpcodes fuel s.current_offset hpos).2
  have hpw2 : ((records buf hierarchyOpcodes fuel s.current_offset).filterMap nodeOf).Pairwise
      (fun a b => a.1 < b.1) := by
    refine List.Pairwise.filterMap nodeOf ?_ hpw
    intro a a' haa b hb b' hb'
    simp only [nodeOf, Option.mem_def, Option.map_eq_some'] at hb hb'
    rcases hb with ⟨_, _, rfl⟩
    rcases hb' with ⟨_, _, rfl⟩
    exact haa
  rw [← hdrop, List.pairwise_map] at hpw2
  exact hpw2

set_option maxRecDepth 100000 in
theorem phase2_offsets_strictly_increase_witness :
    ((demoState [demoDB, demoGroupLong, demoFace] 62).nodes.drop
      (demoState [demoDB] 6).nodes.length).Pairwise (fun a b => a.offset_ < b.offset_) :=
  phase2_offsets_strictly_increase demoBuffer 6 (demoState [demoDB] 6)
    (demoState [demoDB, demoGroupLong, demoFace] 62) (by decide) (by decide)

/-- C8. After phase 1 (started from the state the header leaves) the recorded color-palette
location is the (offset, declared length) of the last Color-Palette record (32) met in the
preamble; the material-palette lists hold exactly the offsets and the declared lengths of
the Material-Palette records (113) met, in stream order, and have equal length; the node
list is the one phase 1 started with.  A Light-Palette (102), Eyepoint/Trackplane-Palette
(83), Vertex-Palette (67) or Vertex-with-Color-and-Normal (69) record only moves the cursor
forward by its declared length. -/
theorem phase1_records_palette_locations (buf : Buffer) :
    (∀ (fuel : Nat) (s0 s1 : State), header buf = some s0 →
        phase1 buf fuel s0 = Outcome.done s1 →
        (∀ r, ((records buf preambleOpcodes fuel s0.current_offset).filter
            (fun r => r.opcode = 32)).getLast? = some r →
          s1.clrplt_offset_ = r.offset ∧ s1.clrplt_size_ = r.length) ∧
        s1.matplt_offsets_ = ((records buf preambleOpcodes fuel s0.current_offset).filter
            (fun r => r.opcode = 113)).map Record.offset ∧
        s1.matplt_sizes_ = ((records buf preambleOpcodes fuel s0.current_offset).filter
            (fun r => r.opcode = 113)).map Record.length ∧
        s1.matplt_offsets_.length = s1.matplt_sizes_.length ∧
        s1.nodes = s0.nodes) ∧
    (∀ (s : State) (op len : Nat), get_2b buf s.current_offset = some op →
        get_2b buf (s.current_offset + 2) = some len →
        (op = 102 ∨ op = 83 ∨ op = 67 ∨ op = 69) →
        phase1Step buf s
          = some (Flow.continue_ { s with current_offset := s.current_offset + len })) := by
  refine ⟨?_, ?_⟩
  · intro fuel s0 s1 h0 h1
    rcases header_eq buf s0 h0 with ⟨id, len, _, _, hs0⟩
    rcases phase1_effect buf fuel s0 s1 h1 with ⟨hn, hmo, hms, hclr, _, _⟩
    have hmo0 : s0.matplt_offsets_ = [] := by rw [hs0]
    have hms0 : s0.matplt_sizes_ = [] := by rw [hs0]
    rw [hmo0, List.nil_append] at hmo
    rw [hms0, List.nil_append] at hms
    refine ⟨?_, hmo, hms, ?_, hn⟩
    · intro r hr
      rw [hr] at hclr
      simp only [Option.map_some', Option.getD_some, Prod.mk.injEq] at hclr
      exact hclr
    · rw [hmo, hms, List.length_map, List.length_map]
  · intro s op len hop hlen hcase
    rcases hcase with rfl | rfl | rfl | rfl <;>
      simp [phase1Step, advance, hop, hlen, record_length_offset, CLRPLT, MATPLT, LGTPLT,
        EPTPLT, VRXPLT, VRXCRN]

set_option maxRecDepth 100000 in
theorem phase1_records_palette_locations_witness :
    (synthAfterPreamble.clrplt_offset_ = (⟨28, 32, 144⟩ : Record).offset ∧
      synthAfterPreamble.clrplt_size_ = (⟨28, 32, 144⟩ : Record).length) ∧
    (synthAfterPreamble.matplt_offsets_
        = ((records synthBuffer preambleOpcodes 3 synthAfterHeader.current_offset).filter
            (fun r => r.opcode = 113)).map Record.offset ∧
      synthAfterPreamble.matplt_sizes_
        = ((records synthBuffer preambleOpcodes 3 synthAfterHeader.current_offset).filter
            (fun r => r.opcode = 113)).map Record.length ∧
      synthAfterPreamble.matplt_offsets_.length = synthAfterPreamble.matplt_sizes_.length ∧
      synthAfterPreamble.nodes = synthAfterHeader.nodes) ∧
    phase1Step [0, 102, 0, 4] (demoState [] 0)
      = some (Flow.continue_
          { demoState [] 0 with current_offset := (demoState [] 0).current_offset + 4 }) :=
  ⟨((phase1_records_palette_locations synthBuffer).1 3 synthAfterHeader synthAfterPreamble
      (by decide) (by decide)).1 ⟨28, 32, 144⟩ (by decide),
   ((phase1_records_palette_locations synthBuffer).1 3 synthAfterHeader synthAfterPreamble
      (by decide) (by decide)).2,
   (phase1_records_palette_locations [0, 102, 0, 4]).2 (demoState [] 0) 102 4 (by decide)
      (by decide) (by decide)⟩

/-! ## Claims about attribute resolution -/

/-- What one line of the face report is, for the node it comes from. -/
theorem faceReport_forall₂ (buf : Buffer) (clr : Nat) :
    ∀ (nodes : List Node) (report : List Appearance),
      faceReport buf clr nodes = some report →
      List.Forall₂
        (fun n r => r.id_ = n.id_ ∧
          get_2b buf (n.offset_ + 20) = some r.color_name_index ∧
          (∃ v, get_2b buf (n.offset_ + 30) = some v ∧ r.material_index = toInt16 v) ∧
          colorLookup buf clr r.color_name_index = some r.color)
        (nodes.filter (fun n => n.type_ = node_t.FACE)) report := by
  intro nodes
  induction nodes with
  | nil =>
    intro report h
    simp only [faceReport, Option.some.injEq] at h
    subst h
    simp
  | cons n rest ih =>
    intro report h
    unfold faceReport at h
    by_cases hf : n.type_ = node_t.FACE
    · simp only [hf, if_true, color_offset, material_offset] at h
      cases hc : get_2b buf (n.offset_ + 20) with
      | none => simp [hc] at h
      | some c =>
        cases hm : get_2b buf (n.offset_ + 30) with
        | none => simp [hc, hm] at h
        | some v =>
          cases hl : colorLookup buf clr c with
          | none => simp [hc, hm, hl] at h
          | some col =>
            cases ht : faceReport buf clr rest with
            | none => simp [hc, hm, hl, ht] at h
            | some tail =>
              simp only [hc, hm, hl, ht, Option.bind_eq_bind, Option.some_bind,
                Option.pure_def, Option.some.injEq] at h
              subst h
              rw [List.filter_cons_of_pos (by simpa using hf)]
              refine List.Forall₂.cons ?_ (ih tail ht)
              exact ⟨rfl, hc, ⟨v, hm, by dsimp only⟩, hl⟩
    · simp only [hf, if_false] at h
      rw [List.filter_cons_of_neg (by simpa using hf)]
      exact ih report h

theorem faceReport_isSome (buf : Buffer) (clr : Nat) :
    ∀ (nodes : List Node),
      (∀ n ∈ nodes, n.type_ = node_t.FACE →
        ∃ c, get_2b buf (n.offset_ + 20) = some c ∧
          (get_2b buf (n.offset_ + 30)).isSome ∧ (colorLookup buf clr c).isSome) →
      (faceReport buf clr nodes).isSome := by
  intro nodes
  induction nodes with
  | nil => intro _; simp [faceReport]
  | cons n rest ih =>
    intro hall
    have hrest := ih (fun m hm => hall m (List.mem_cons_of_mem _ hm))
    rcases Option.isSome_iff_exists.mp hrest with ⟨tail, ht⟩
    unfold faceReport
    by_cases hf : n.type_ = node_t.FACE
    · rcases hall n (List.mem_cons_self _ _) hf with ⟨c, hc, hm, hl⟩
      rcases Option.isSome_iff_exists.mp hm with ⟨v, hv⟩
      rcases Option.isSome_iff_exists.mp hl with ⟨col, hcol⟩
      simp [hf, color_offset, material_offset, hc, hv, hcol, ht]
    · simp [hf, ht]

/-- C3. Attribute resolution yields exactly one result per node of kind FACE and none for
any other kind, in the order of the node list; the result for a Face node at offset `o`
carries the node's id, `colorIndex = get_2b(o + 20)`, `materialIndex` = the 16-bit value at
`o + 30` converted to a signed 16-bit integer, and `resolvedColor` = the color lookup of that
`colorIndex`.  The report exists whenever these reads are inside the buffer for every Face
node. -/
theorem faceReport_one_result_per_face (buf : Buffer) (clr : Nat) (nodes : List Node) :
    (∀ report, faceReport buf clr nodes = some report →
      report.length = (nodes.filter (fun n => n.type_ = node_t.FACE)).length ∧
      List.Forall₂
        (fun n r => r.id_ = n.id_ ∧
          get_2b buf (n.offset_ + 20) = some r.color_name_index ∧
          (∃ v, get_2b buf (n.offset_ + 30) = some v ∧ r.material_index = toInt16 v) ∧
          colorLookup buf clr r.color_name_index = some r.color)
        (nodes.filter (fun n => n.type_ = node_t.FACE)) report) ∧
    ((∀ n ∈ nodes, n.type_ = node_t.FACE →
        ∃ c, get_2b buf (n.offset_ + 20) = some c ∧
          (get_2b buf (n.offset_ + 30)).isSome ∧ (colorLookup buf clr c).isSome) →
      (faceReport buf clr nodes).isSome) := by
  refine ⟨?_, faceReport_isSome buf clr nodes⟩
  intro report h
  have hfa := faceReport_forall₂ buf clr nodes report h
  exact ⟨hfa.length_eq.symm, hfa⟩

set_option maxRecDepth 100000 in
theorem faceReport_one_result_per_face_witness :
    ([⟨idF1, 2, 0xAABBCCDD, -1⟩] : List Appearance).length
      = (([⟨idDBroot, 0, node_t.DB⟩, ⟨idG1, 180, node_t.GROUP⟩, ⟨idF1, 192, node_t.FACE⟩]
          : List Node).filter (fun n => n.type_ = node_t.FACE)).length ∧
    List.Forall₂
      (fun (n : Node) (r : Appearance) => r.id_ = n.id_ ∧
        get_2b synthBuffer (n.offset_ + 20) = some r.color_name_index ∧
        (∃ v, get_2b synthBuffer (n.offset_ + 30) = some v ∧ r.material_index = toInt16 v) ∧
        colorLookup synthBuffer 28 r.color_name_index = some r.color)
      (([⟨idDBroot, 0, node_t.DB⟩, ⟨idG1, 180, node_t.GROUP⟩, ⟨idF1, 192, node_t.FACE⟩]
          : List Node).filter (fun n => n.type_ = node_t.FACE))
      [⟨idF1, 2, 0xAABBCCDD, -1⟩] :=
  (faceReport_one_result_per_face synthBuffer 28
    [⟨idDBroot, 0, node_t.DB⟩, ⟨idG1, 180, node_t.GROUP⟩, ⟨idF1, 192, node_t.FACE⟩]).1
    [⟨idF1, 2, 0xAABBCCDD, -1⟩] (by decide)

/-- C4. With the color palette recorded at offset `c` and `i` a color name index (a
`uint16_t`), if the four bytes at `c + 132 + 4*i .. c + 132 + 4*i + 3` lie inside the buffer,
the color lookup of `i` returns exactly those bytes as the big-endian value
`b0*2^24 + b1*2^16 + b2*2^8 + b3`. -/
theorem colorLookup_returns_entry_bytes (buf : Buffer) (s : State) (c i : Nat)
    (hc : s.clrplt_offset_ = c) (hi : i < 65536) (hin : c + 132 + 4 * i + 3 < buf.length) :
    colorLookup buf s.clrplt_offset_ i
      = some (buf[c + 132 + 4 * i].val * 2 ^ 24 + buf[c + 132 + 4 * i + 1].val * 2 ^ 16
          + buf[c + 132 + 4 * i + 2].val * 2 ^ 8 + buf[c + 132 + 4 * i + 3].val) := by
  unfold colorLookup
  rw [hc]
  simp only [first_color_palette_offset, color_size]
  have hmod : (4 * i) % 2 ^ 32 = 4 * i := Nat.mod_eq_of_lt (by omega)
  rw [hmod, get_4b_eq buf (c + 132 + 4 * i) buf[c + 132 + 4 * i] buf[c + 132 + 4 * i + 1]
    buf[c + 132 + 4 * i + 2] buf[c + 132 + 4 * i + 3] (List.getElem?_eq_getElem _)
    (List.getElem?_eq_getElem _) (List.getElem?_eq_getElem _) (List.getElem?_eq_getElem _)]
  congr 1
  omega

set_option maxRecDepth 100000 in
theorem colorLookup_returns_entry_bytes_witness :
    colorLookup synthBuffer synthAfterPreamble.clrplt_offset_ 2
      = some (0xAA * 2 ^ 24 + 0xBB * 2 ^ 16 + 0xCC * 2 ^ 8 + 0xDD) :=
  colorLookup_returns_entry_bytes synthBuffer synthAfterPreamble 28 2 (by decide) (by decide)
    (by decide)

/-- C5. On the synthetic buffer (header of length 28 with id "DB-root", a Color-Palette
record whose entry 2 is AA BB CC DD, a Material-Palette record of length 8, a Group "G1" of
length 12, a Face "F1" of length 40 with bytes 00 02 at +20 and FF FF at +30, then an
unrecognised opcode) the program terminates, given at least three passes per loop, with
exactly the nodes (DB-root, G1, F1) of kinds Database, Group, Face and exactly one face
result: id F1, colorIndex 2, resolvedColor 0xAABBCCDD, materialIndex -1. -/
theorem synth_end_to_end (k : Nat) :
    run synthBuffer (3 + k) = Outcome.done
      ([⟨idDBroot, 0, node_t.DB⟩, ⟨idG1, 180, node_t.GROUP⟩, ⟨idF1, 192, node_t.FACE⟩],
       [⟨idF1, 2, 0xAABBCCDD, -1⟩]) := by
  apply run_done_add
  set_option maxRecDepth 100000 in decide

/-! ## Signed material index -/

theorem toInt16_eq (v : Nat) (h : v < 65536) :
    toInt16 v = if v < 32768 then (v : Int) else (v : Int) - 65536 := by
  unfold toInt16 Int.bmod
  have hm : ((v : Int) % ((2 ^ 16 : Nat) : Int)) = (v : Int) := by
    norm_num
    omega
  simp only [hm]
  norm_num

/-- C11. For every Face node at offset `o` the reported materialIndex is the two's-complement
signed reading of `v = get_2b(o + 30)`: `v` when `v < 32768` and `v - 65536` otherwise, so it
lies in `[-32768, 32767]` and the bytes FF FF give -1.  Negative values appear in the report
as they are, and the value is a function of those two bytes alone: no material-palette field
enters the report. -/
theorem material_index_twos_complement (buf : Buffer) (clr : Nat) (nodes : List Node) :
    (∀ report, faceReport buf clr nodes = some report →
      List.Forall₂
        (fun n r => ∃ v, get_2b buf (n.offset_ + 30) = some v ∧
          r.material_index = (if v < 32768 then (v : Int) else (v : Int) - 65536) ∧
          -32768 ≤ r.material_index ∧ r.material_index ≤ 32767)
        (nodes.filter (fun n => n.type_ = node_t.FACE)) report) ∧
    (∀ o, buf[o + 30]? = some 255 → buf[o + 31]? = some 255 →
      get_2b buf (o + 30) = some 65535 ∧ toInt16 65535 = -1) := by
  refine ⟨?_, ?_⟩
  · intro report h
    refine List.Forall₂.imp ?_ (faceReport_forall₂ buf clr nodes report h)
    rintro n r ⟨_, _, ⟨v, hv, hr⟩, _⟩
    have hlt := get_2b_lt buf _ v hv
    have he := toInt16_eq v hlt
    refine ⟨v, hv, hr.trans he, ?_, ?_⟩
    · rw [hr, he]
      split_ifs <;> omega
    · rw [hr, he]
      split_ifs <;> omega
  · intro o h0 h1
    refine ⟨?_, ?_⟩
    · rw [get_2b_eq buf (o + 30) 255 255 h0 h1]
      rfl
    · rw [toInt16_eq 65535 (by norm_num)]
      norm_num

set_option maxRecDepth 100000 in
theorem material_index_twos_complement_witness :
    List.Forall₂
      (fun (n : Node) (r : Appearance) => ∃ v, get_2b synthBuffer (n.offset_ + 30) = some v ∧
        r.material_index = (if v < 32768 then (v : Int) else (v : Int) - 65536) ∧
        -32768 ≤ r.material_index ∧ r.material_index ≤ 32767)
      (([⟨idDBroot, 0, node_t.DB⟩, ⟨idG1, 180, node_t.GROUP⟩, ⟨idF1, 192, node_t.FACE⟩]
          : List Node).filter (fun n => n.type_ = node_t.FACE))
      [⟨idF1, 2, 0xAABBCCDD, -1⟩] ∧
    (get_2b synthBuffer (192 + 30) = some 65535 ∧ toInt16 65535 = -1) :=
  ⟨(material_index_twos_complement synthBuffer 28
      [⟨idDBroot, 0, node_t.DB⟩, ⟨idG1, 180, node_t.GROUP⟩, ⟨idF1, 192, node_t.FACE⟩]).1
      [⟨idF1, 2, 0xAABBCCDD, -1⟩] (by decide),
   (material_index_twos_complement synthBuffer 28 []).2 192 (by decide) (by decide)⟩

/-! ## Loops that do not stop -/

theorem loop_running_of_invariant (step : State → Option Flow) (Q : State → Prop)
    (hQ : ∀ s, Q s → ∃ s1, step s = some (Flow.continue_ s1) ∧ Q s1) :
    ∀ (fuel : Nat) (s : State), Q s → loop step fuel s = Outcome.running := by
  intro fuel
  induction fuel with
  | zero => intro s _; rfl
  | succ fuel ih =>
    intro s hs
    rcases hQ s hs with ⟨s1, hstep, hs1⟩
    unfold loop
    simp only [hstep]
    exact ih s1 hs1

theorem loop_running_of_passes (step : State → Option Flow) :
    ∀ (n : Nat) (s s' : State), passes step n s = some s' →
      (∀ fuel, loop step fuel s' = Outcome.running) →
      ∀ fuel, loop step fuel s = Outcome.running := by
  intro n
  induction n with
  | zero =>
    intro s s' h hrun
    simp only [passes, Option.some.injEq] at h
    subst h
    exact hrun
  | succ n ih =>
    intro s s' h hrun fuel
    unfold passes at h
    cases hs : step s with
    | none => simp [hs] at h
    | some f =>
      cases f with
      | break_ => simp [hs] at h
      | continue_ s1 =>
        simp only [hs] at h
        cases fuel with
        | zero => rfl
        | succ fuel =>
          unfold loop
          simp only [hs]
          exact ih s1 s' h hrun fuel

theorem loop_done_cases (step : State → Option Flow) :
    ∀ (fuel : Nat) (s s' : State), loop step fuel s = Outcome.done s' →
      ∀ fuel', loop step fuel' s = Outcome.running ∨ loop step fuel' s = Outcome.done s' := by
  intro fuel
  induction fuel with
  | zero => intro s s' h; simp [loop] at h
  | succ fuel ih =>
    intro s s' h fuel'
    cases fuel' with
    | zero => left; rfl
    | succ fuel' =>
      unfold loop at h ⊢
      cases hs : step s with
      | none => simp [hs] at h
      | some f =>
        cases f with
        | break_ =>
          right
          simpa [hs] using h
        | continue_ s1 =>
          simp only [hs] at h ⊢
          exact ih s1 s' h fuel'

theorem phase1Step_defined (buf : Buffer) (s : State) (op len : Nat)
    (hop : get_2b buf s.current_offset = some op)
    (hlen : get_2b buf (s.current_offset + 2) = some len) (hmem : op ∈ preambleOpcodes) :
    ∃ s1, phase1Step buf s = some (Flow.continue_ s1) ∧
      s1.current_offset = s.current_offset + len := by
  simp only [preambleOpcodes, List.mem_cons, List.mem_singleton, List.mem_nil_iff,
    or_false] at hmem
  rcases hmem with rfl | rfl | rfl | rfl | rfl | rfl <;>
    simp [phase1Step, advance, hop, hlen, record_length_offset, CLRPLT, MATPLT,
      LGTPLT, EPTPLT, VRXPLT, VRXCRN]

theorem setLastId_isSome (nodes : List Node) (v : List Byte) (h : nodes ≠ []) :
    ∃ nodes', setLastId nodes v = some nodes' ∧ nodes' ≠ [] := by
  unfold setLastId
  rw [List.getLast?_eq_getLast _ h]
  exact ⟨_, rfl, by simp⟩

theorem phase2Step_defined (buf : Buffer) (s : State) (op len : Nat)
    (hop : get_2b buf s.current_offset = some op)
    (hlen : get_2b buf (s.current_offset + 2) = some len) (hmem : op ∈ hierarchyOpcodes)
    (hid : op = 2 ∨ op = 4 ∨ op = 5 ∨ op = 33 → (get_id buf (s.current_offset + 4)).isSome)
    (hne : op = 33 → s.nodes ≠ []) :
    ∃ s1, phase2Step buf s = some (Flow.continue_ s1) ∧
      s1.current_offset = s.current_offset + len ∧ (op = 33 → s1.nodes ≠ []) := by
  simp only [hierarchyOpcodes, List.mem_cons, List.mem_singleton, List.mem_nil_iff,
    or_false] at hmem
  rcases hmem with rfl | rfl | rfl | rfl | rfl | rfl | rfl
  · simp [phase2Step, advance, hop, hlen, record_length_offset, PUSHLV]
  · simp [phase2Step, advance, hop, hlen, record_length_offset, PUSHLV, POPLV]
  · rcases Option.isSome_iff_exists.mp (hid (by simp)) with ⟨id, hidv⟩
    simp [phase2Step, emplace, advance, hop, hlen, hidv, record_length_offset, id_offset,
      PUSHLV, POPLV, GROUP]
  · rcases Option.isSome_iff_exists.mp (hid (by simp)) with ⟨id, hidv⟩
    simp [phase2Step, emplace, advance, hop, hlen, hidv, record_length_offset, id_offset,
      PUSHLV, POPLV, GROUP, OBJECT]
  · rcases Option.isSome_iff_exists.mp (hid (by simp)) with ⟨id, hidv⟩
    simp [phase2Step, emplace, advance, hop, hlen, hidv, record_length_offset, id_offset,
      PUSHLV, POPLV, GROUP, OBJECT, FACE]
  · simp [phase2Step, advance, hop, hlen, record_length_offset, PUSHLV, POPLV, GROUP,
      OBJECT, FACE, VRXLST]
  · rcases Option.isSome_iff_exists.mp (hid (by simp)) with ⟨id, hidv⟩
    rcases setLastId_isSome s.nodes id (hne rfl) with ⟨nodes', hset, hne'⟩
    simp [phase2Step, advance, hop, hlen, hidv, hset, hne', record_length_offset, id_offset,
      PUSHLV, POPLV, GROUP, OBJECT, FACE, VRXLST, LONGID]

/-! ## Records of declared length 0 -/

theorem phase1_zero_running (buf : Buffer) (s s1 : State)
    (h : phase1Step buf s = some (Flow.continue_ s1))
    (hz : get_2b buf (s.current_offset + 2) = some 0) :
    ∀ fuel, phase1 buf fuel s = Outcome.running := by
  intro fuel
  refine loop_running_of_invariant (phase1Step buf)
    (fun t => ∃ op, get_2b buf t.current_offset = some op ∧ op ∈ preambleOpcodes ∧
      get_2b buf (t.current_offset + 2) = some 0) ?_ fuel s ?_
  · rintro t ⟨op, hop, hmem, hlen⟩
    rcases phase1Step_defined buf t op 0 hop hlen hmem with ⟨t1, ht1, hcur⟩
    rw [Nat.add_zero] at hcur
    exact ⟨t1, ht1, op, by rw [hcur]; exact hop, hmem, by rw [hcur]; exact hlen⟩
  · rcases phase1Step_continue buf s s1 h with ⟨op, len, hop, _, hmem, _⟩
    exact ⟨op, hop, hmem, hz⟩

theorem phase2_zero_running (buf : Buffer) (s s1 : State)
    (h : phase2Step buf s = some (Flow.continue_ s1))
    (hz : get_2b buf (s.current_offset + 2) = some 0) :
    ∀ fuel, phase2 buf fuel s = Outcome.running := by
  intro fuel
  refine loop_running_of_invariant (phase2Step buf)
    (fun t => ∃ op, get_2b buf t.current_offset = some op ∧ op ∈ hierarchyOpcodes ∧
      get_2b buf (t.current_offset + 2) = some 0 ∧
      (op = 2 ∨ op = 4 ∨ op = 5 ∨ op = 33 → (get_id buf (t.current_offset + 4)).isSome) ∧
      (op = 33 → t.nodes ≠ [])) ?_ fuel s ?_
  · rintro t ⟨op, hop, hmem, hlen, hid, hne⟩
    rcases phase2Step_defined buf t op 0 hop hlen hmem hid hne with ⟨t1, ht1, hcur, hne1⟩
    rw [Nat.add_zero] at hcur
    refine ⟨t1, ht1, op, ?_, hmem, ?_, ?_, hne1⟩
    · rw [hcur]; exact hop
    · rw [hcur]; exact hlen
    · rw [hcur]; exact hid
  · rcases phase2Step_continue buf s s1 h with ⟨op, len, hop, _, hmem, _, hcase⟩
    refine ⟨op, hop, hmem, hz, ?_, ?_⟩
    · intro hop4
      rcases hcase with ⟨_, id, _, hid, _⟩ | ⟨hskip, _⟩ | ⟨_, id, hid, _⟩
      · simp [hid]
      · omega
      · simp [hid]
    · intro h33
      rcases hcase with ⟨t, _, ht, _, _⟩ | ⟨hskip, _⟩ | ⟨_, id, _, hset⟩
      · subst h33
        simp [nodeKind] at ht
      · omega
      · rcases setLastId_eq _ _ _ hset with ⟨front, last, hfront, _⟩
        rw [hfront]
        simp

theorem scan_running_of_phase1 (buf : Buffer) (s0 : State) (h0 : header buf = some s0)
    (hrun : ∀ fuel, phase1 buf fuel s0 = Outcome.running) :
    ∀ fuel, scan buf fuel = Outcome.running := by
  intro fuel
  unfold scan
  simp only [h0, hrun fuel]

theorem scan_running_of_phase2 (buf : Buffer) (s0 s1 : State) (f1 : Nat)
    (h0 : header buf = some s0) (h1 : phase1 buf f1 s0 = Outcome.done s1)
    (hrun : ∀ fuel, phase2 buf fuel s1 = Outcome.running) :
    ∀ fuel, scan buf fuel = Outcome.running := by
  intro fuel
  unfold scan
  simp only [h0]
  rcases loop_done_cases (phase1Step buf) f1 s0 s1 h1 fuel with hr | hd
  · have hr' : phase1 buf fuel s0 = Outcome.running := hr
    simp only [hr']
  · have hd' : phase1 buf fuel s0 = Outcome.done s1 := hd
    simp only [hd', hrun fuel]

/-- C12, as amended. The code has no ZeroLengthRecord error.  A recognised record of declared
length 0 on which phase 1 or phase 2 performs a pass is processed again and again: whatever
the number of passes allowed, the loop, and the scan that reached the record, is still
running and yields no node list.  A header record of declared length 0 raises no error
either: it leaves the cursor at 0. -/
theorem zero_length_record_never_completes (buf : Buffer) :
    (∀ s s1, phase1Step buf s = some (Flow.continue_ s1) →
      get_2b buf (s.current_offset + 2) = some 0 →
      ∀ fuel, phase1 buf fuel s = Outcome.running) ∧
    (∀ s s1, phase2Step buf s = some (Flow.continue_ s1) →
      get_2b buf (s.current_offset + 2) = some 0 →
      ∀ fuel, phase2 buf fuel s = Outcome.running) ∧
    (∀ s0 n s s1, header buf = some s0 → passes (phase1Step buf) n s0 = some s →
      phase1Step buf s = some (Flow.continue_ s1) →
      get_2b buf (s.current_offset + 2) = some 0 →
      ∀ fuel, scan buf fuel = Outcome.running) ∧
    (∀ s0 f1 sp n s s1, header buf = some s0 → phase1 buf f1 s0 = Outcome.done sp →
      passes (phase2Step buf) n sp = some s →
      phase2Step buf s = some (Flow.continue_ s1) →
      get_2b buf (s.current_offset + 2) = some 0 →
      ∀ fuel, scan buf fuel = Outcome.running) ∧
    (∀ s0, header buf = some s0 → get_2b buf 2 = some 0 → s0.current_offset = 0) := by
  refine ⟨phase1_zero_running buf, phase2_zero_running buf, ?_, ?_, ?_⟩
  · intro s0 n s s1 h0 hp hstep hz
    exact scan_running_of_phase1 buf s0 h0
      (loop_running_of_passes (phase1Step buf) n s0 s hp (phase1_zero_running buf s s1 hstep hz))
  · intro s0 f1 sp n s s1 h0 h1 hp hstep hz
    exact scan_running_of_phase2 buf s0 sp f1 h0 h1
      (loop_running_of_passes (phase2Step buf) n sp s hp (phase2_zero_running buf s s1 hstep hz))
  · intro s0 h0 hz
    rcases header_eq buf s0 h0 with ⟨id, len, _, hlen, hs0⟩
    rw [hz] at hlen
    rw [hs0]
    exact (Option.some.inj hlen).symm

theorem zero_length_record_never_completes_witness :
    scan zeroLengthBuffer 1000 = Outcome.running ∧
    (demoState [demoDB] 0).current_offset = 0 :=
  ⟨(zero_length_record_never_completes zeroLengthBuffer).2.2.2.1 (demoState [demoDB] 6) 1
      (demoState [demoDB] 6) 0 (demoState [demoDB] 6) (demoState [demoDB] 6) (by decide)
      (by decide) (by decide) (by decide) (by decide) 1000,
   (zero_length_record_never_completes zeroHeaderBuffer).2.2.2.2 (demoState [demoDB] 0)
      (by decide) (by decide)⟩

/-- C12, counterexample. On `zeroLengthBuffer` phase 2 meets a Push-Level record of declared
length 0 and the scan neither fails nor completes, however many passes it is given; on
`zeroHeaderBuffer` the header's declared length is 0 and the scan completes with a node
list. -/
theorem zero_length_record_counterexample :
    (∀ fuel, scan zeroLengthBuffer fuel = Outcome.running) ∧
    get_2b zeroLengthBuffer 6 = some 10 ∧ get_2b zeroLengthBuffer (6 + 2) = some 0 ∧
    get_2b zeroHeaderBuffer 2 = some 0 ∧
    scan zeroHeaderBuffer 1 = Outcome.done (demoState [demoDB] 0) :=
  ⟨scan_running_of_phase2 zeroLengthBuffer (demoState [demoDB] 6) (demoState [demoDB] 6) 1
      (by decide) (by decide)
      (phase2_zero_running zeroLengthBuffer (demoState [demoDB] 6) (demoState [demoDB] 6)
        (by decide) (by decide)),
   by decide, by decide, by decide, by decide⟩

/-! ## The Long-ID branch on an empty node list -/

theorem get_2b_eq_none_iff (buf : Buffer) (i : Nat) :
    get_2b buf i = none ↔ buf.length ≤ i + 1 := by
  by_cases h : i + 1 < buf.length
  · have e := get_2b_eq buf i buf[i] buf[i + 1] (List.getElem?_eq_getElem _)
      (List.getElem?_eq_getElem _)
    rw [e]
    simp
    omega
  · have h1 : buf[i + 1]? = none := List.getElem?_eq_none (by omega)
    simp only [get_2b, h1, Option.bind_eq_bind, Option.none_bind, true_iff]
    omega

theorem get_4b_eq_none_iff (buf : Buffer) (i : Nat) :
    get_4b buf i = none ↔ buf.length ≤ i + 3 := by
  by_cases h : i + 3 < buf.length
  · have e := get_4b_eq buf i buf[i] buf[i + 1] buf[i + 2] buf[i + 3]
      (List.getElem?_eq_getElem _) (List.getElem?_eq_getElem _)
      (List.getElem?_eq_getElem _) (List.getElem?_eq_getElem _)
    rw [e]
    simp
    omega
  · have h3 : buf[i + 3]? = none := List.getElem?_eq_none (by omega)
    simp only [get_4b, h3, Option.bind_eq_bind, Option.none_bind, true_iff]
    omega

theorem loop_undef_of_step_none (step : State → Option Flow) (s : State) (fuel : Nat)
    (h : step s = none) : loop step (fuel + 1) s = Outcome.undef := by
  unfold loop
  simp only [h]

/-- C14, as amended. `get_1b`, `get_2b` and `get_4b` make no bounds check and no OutOfBounds
or UnexpectedEndOfBuffer error exists: each returns a value exactly when all the bytes it
reads lie inside the buffer, and otherwise indexes the buffer out of range, which is
undefined.  A pass of either scan loop whose cursor has reached or passed the last byte
performs such a read of its opcode. -/
theorem reads_are_unchecked (buf : Buffer) (i : Nat) :
    (get_1b buf i = none ↔ buf.length ≤ i) ∧
    (get_2b buf i = none ↔ buf.length ≤ i + 1) ∧
    (get_4b buf i = none ↔ buf.length ≤ i + 3) ∧
    (∀ (s : State) (fuel : Nat), s.current_offset = i → buf.length ≤ i + 1 →
      phase1 buf (fuel + 1) s = Outcome.undef ∧ phase2 buf (fuel + 1) s = Outcome.undef) := by
  refine ⟨?_, get_2b_eq_none_iff buf i, get_4b_eq_none_iff buf i, ?_⟩
  · unfold get_1b
    exact List.getElem?_eq_none_iff
  · intro s fuel hs hlen
    have hnone : get_2b buf s.current_offset = none := by
      rw [hs]
      exact (get_2b_eq_none_iff buf i).mpr hlen
    refine ⟨loop_undef_of_step_none _ s fuel ?_, loop_undef_of_step_none _ s fuel ?_⟩
    · simp [phase1Step, hnone]
    · simp [phase2Step, hnone]

theorem reads_are_unchecked_witness :
    phase1 shortBuffer (0 + 1) (demoState [demoDB] 8) = Outcome.undef ∧
    phase2 shortBuffer (0 + 1) (demoState [demoDB] 8) = Outcome.undef :=
  (reads_are_unchecked shortBuffer 8).2.2.2 (demoState [demoDB] 8) 0 (by decide) (by decide)

/-- C14, counterexample. Reads whose last byte is outside the buffer raise no OutOfBounds:
they are out-of-range accesses.  On `shortBuffer` the header declares length 8 in a buffer of
6 bytes; the cursor passes the end and phase 1 reads its opcode there instead of stopping
with UnexpectedEndOfBuffer. -/
theorem reads_out_of_range_counterexample :
    get_1b [7] 1 = none ∧ get_2b [7] 0 = none ∧ get_4b [7, 7, 7] 0 = none ∧
    header shortBuffer = some (demoState [demoDB] 8) ∧
    phase1Step shortBuffer (demoState [demoDB] 8) = none ∧
    scan shortBuffer 1 = Outcome.undef := by
  decide

/-! ## `get_id` without a terminating NUL -/

theorem get_idLoop_none (buf : Buffer) :
    ∀ (fuel i : Nat) (acc : List Byte), (∀ j, i ≤ j → buf[j]? ≠ some 0) →
      get_idLoop buf fuel i acc = none := by
  intro fuel
  induction fuel with
  | zero => intro i acc _; rfl
  | succ fuel ih =>
    intro i acc h
    unfold get_idLoop get_1b
    cases hb : buf[i]? with
    | none => rfl
    | some b =>
      have hne : b ≠ 0 := by
        intro h0
        exact h i (Nat.le_refl i) (by rw [hb, h0])
      simp only [hne, ne_eq, not_false_eq_true, if_true]
      exact ih (i + 1) (acc ++ [b]) (fun j hj => h j (by omega))

theorem get_idLoop_to_end (buf : Buffer) :
    ∀ (k i f : Nat) (acc : List Byte), i + k = buf.length →
      (∀ j, i ≤ j → buf[j]? ≠ some 0) →
      get_idLoop buf (k + f) i acc = get_idLoop buf f buf.length (acc ++ buf.drop i) := by
  intro k
  induction k with
  | zero =>
    intro i f acc hik _
    have hi : i = buf.length := by omega
    subst hi
    simp
  | succ k ih =>
    intro i f acc hik h
    have hi : i < buf.length := by omega
    have hne : buf[i] ≠ 0 := by
      intro h0
      exact h i (Nat.le_refl i) (by rw [List.getElem?_eq_getElem hi, h0])
    have hstep : get_idLoop buf (k + 1 + f) i acc
        = get_idLoop buf (k + f) (i + 1) (acc ++ [buf[i]]) := by
      rw [Nat.add_right_comm]
      simp [get_idLoop, get_1b, List.getElem?_eq_getElem hi, hne]
    rw [hstep, ih (i + 1) f (acc ++ [buf[i]]) (by omega) (fun j hj => h j (by omega)),
      List.append_assoc]
    congr 2
    exact (List.drop_eq_getElem_cons hi).symm

/-- C15, as amended. `get_id` has no bound and no UnterminatedString error exists.  When no
byte at a position `>= i` inside the buffer is NUL (in particular when `i` is at or beyond
the end), `get_id(i)` returns no string: its loop, however long it may run, collects the bytes
up to the end of the buffer and then reads `buffer_[n]`, outside the buffer, which is
undefined. -/
theorem get_id_unterminated_reads_past_end (buf : Buffer) (i : Nat)
    (h : ∀ j, i ≤ j → buf[j]? ≠ some 0) :
    get_id buf i = none ∧
    (∀ fuel acc, get_idLoop buf fuel i acc = none) ∧
    (i ≤ buf.length → ∀ f acc, get_idLoop buf (buf.length - i + f) i acc
      = get_idLoop buf f buf.length (acc ++ buf.drop i)) ∧
    get_1b buf buf.length = none := by
  refine ⟨get_idLoop_none buf _ i [] h, fun fuel acc => get_idLoop_none buf fuel i acc h,
    ?_, ?_⟩
  · intro hi f acc
    exact get_idLoop_to_end buf (buf.length - i) i f acc (by omega) h
  · unfold get_1b
    exact List.getElem?_eq_none (Nat.le_refl _)

theorem get_id_unterminated_reads_past_end_witness :
    get_id [65, 66, 0, 67, 68] 3 = none ∧
    (∀ fuel acc, get_idLoop [65, 66, 0, 67, 68] fuel 3 acc = none) ∧
    (3 ≤ ([65, 66, 0, 67, 68] : Buffer).length → ∀ f acc,
      get_idLoop [65, 66, 0, 67, 68] (([65, 66, 0, 67, 68] : Buffer).length - 3 + f) 3 acc
        = get_idLoop [65, 66, 0, 67, 68] f ([65, 66, 0, 67, 68] : Buffer).length
            (acc ++ ([65, 66, 0, 67, 68] : Buffer).drop 3)) ∧
    get_1b [65, 66, 0, 67, 68] ([65, 66, 0, 67, 68] : Buffer).length = none :=
  get_id_unterminated_reads_past_end [65, 66, 0, 67, 68] 3
    (by
      intro j hj
      have hcases : j = 3 ∨ j = 4 ∨ 5 ≤ j := by omega
      rcases hcases with rfl | rfl | h5
      · decide
      · decide
      · rw [List.getElem?_eq_none (by simpa using h5)]
        simp)

/-- C15, counterexample. In the two-byte buffer `A B` no byte from position 0 on is NUL;
`get_id(0)` raises no UnterminatedString: after `A` and `B` its loop reads position 2, which
is outside the buffer, and no string is returned (the same beyond the end, at position 5). -/
theorem get_id_unterminated_counterexample :
    get_id [65, 66] 0 = none ∧ get_1b [65, 66] 0 = some 65 ∧ get_1b [65, 66] 1 = some 66 ∧
    get_1b [65, 66] 2 = none ∧ get_id [65, 66] 5 = none := by
  decide

/-! ## Color lookups outside the declared palette -/

theorem colorLookup_eq_get_4b (buf : Buffer) (c i : Nat) (hi : i < 65536) :
    colorLookup buf c i = get_4b buf (c + 132 + 4 * i) := by
  unfold colorLookup
  simp only [first_color_palette_offset, color_size]
  have hmod : (4 * i) % 2 ^ 32 = 4 * i := Nat.mod_eq_of_lt (by omega)
  rw [hmod]

/-- C16, as amended. For a Face node's color name index `i` (a `uint16_t`) the color lookup
reads the four bytes at `colorPaletteOffset + 132 + 4*i` wherever they lie in the buffer: the
recorded palette size is not consulted and no PaletteIndexOutOfRange exists.  The lookup has a
value exactly when those four bytes are inside the buffer, also when they are outside the
declared span `[colorPaletteOffset, colorPaletteOffset + colorPaletteSize)`. -/
theorem colorLookup_ignores_declared_span (buf : Buffer) (s : State) (i : Nat)
    (hi : i < 65536) :
    colorLookup buf s.clrplt_offset_ i = get_4b buf (s.clrplt_offset_ + 132 + 4 * i) ∧
    ((colorLookup buf s.clrplt_offset_ i).isSome ↔
      s.clrplt_offset_ + 132 + 4 * i + 3 < buf.length) ∧
    (∀ size, colorLookup buf ({ s with clrplt_size_ := size }).clrplt_offset_ i
      = colorLookup buf s.clrplt_offset_ i) := by
  have e := colorLookup_eq_get_4b buf s.clrplt_offset_ i hi
  refine ⟨e, ?_, fun _ => rfl⟩
  rw [e]
  have hn := get_4b_eq_none_iff buf (s.clrplt_offset_ + 132 + 4 * i)
  cases hg : get_4b buf (s.clrplt_offset_ + 132 + 4 * i) with
  | none =>
    have := hn.mp hg
    simp only [Option.isSome_none, Bool.false_eq_true, false_iff]
    omega
  | some v =>
    simp only [Option.isSome_some, true_iff]
    by_contra hcon
    have hnone := hn.mpr (by omega)
    rw [hg] at hnone
    exact Option.noConfusion hnone

set_option maxRecDepth 100000 in
theorem colorLookup_ignores_declared_span_witness :
    colorLookup synthBuffer synthAfterPreamble.clrplt_offset_ 3
      = get_4b synthBuffer (synthAfterPreamble.clrplt_offset_ + 132 + 4 * 3) ∧
    ((colorLookup synthBuffer synthAfterPreamble.clrplt_offset_ 3).isSome ↔
      synthAfterPreamble.clrplt_offset_ + 132 + 4 * 3 + 3 < synthBuffer.length) ∧
    (∀ size, colorLookup synthBuffer
        ({ synthAfterPreamble with clrplt_size_ := size }).clrplt_offset_ 3
      = colorLookup synthBuffer synthAfterPreamble.clrplt_offset_ 3) :=
  colorLookup_ignores_declared_span synthBuffer synthAfterPreamble 3 (by decide)

set_option maxRecDepth 100000 in
/-- C16, counterexample. In `synthBufferWithIndex 3` the color palette is recorded at offset
28 with declared size 144, so its span ends at 172, and the Face record's color name index is
3: the entry would start at 28 + 132 + 12 = 172, outside the span.  The lookup is not
rejected: the report carries the four bytes 00 71 00 08 of the Material-Palette record that
follows the palette. -/
theorem color_index_outside_palette_counterexample :
    scan (synthBufferWithIndex 3) 3
      = Outcome.done (synthState (28, 144) [(172, 8)]
          [⟨idDBroot, 0, node_t.DB⟩, ⟨idG1, 180, node_t.GROUP⟩, ⟨idF1, 192, node_t.FACE⟩] 232) ∧
    28 + 144 ≤ 28 + 132 + 4 * 3 ∧
    run (synthBufferWithIndex 3) 3 = Outcome.done
      ([⟨idDBroot, 0, node_t.DB⟩, ⟨idG1, 180, node_t.GROUP⟩, ⟨idF1, 192, node_t.FACE⟩],
       [⟨idF1, 3, 0x00710008, -1⟩]) := by
  decide

/-! ## Where the phases stop -/

/-- What phase 2 leaves behind besides the node list. -/
theorem phase2_effect (buf : Buffer) :
    ∀ (fuel : Nat) (s s' : State), phase2 buf fuel s = Outcome.done s' →
      s'.clrplt_offset_ = s.clrplt_offset_ ∧ s'.clrplt_size_ = s.clrplt_size_ ∧
      s'.matplt_offsets_ = s.matplt_offsets_ ∧ s'.matplt_sizes_ = s.matplt_sizes_ ∧
      s'.current_offset = s.current_offset +
        ((records buf hierarchyOpcodes fuel s.current_offset).map Record.length).sum ∧
      ∃ op, get_2b buf s'.current_offset = some op ∧ op ∉ hierarchyOpcodes := by
  intro fuel
  induction fuel with
  | zero => intro s s' h; simp [phase2, loop] at h
  | succ fuel ih =>
    intro s s' h
    unfold phase2 loop at h
    cases hs : phase2Step buf s with
    | none => simp [hs] at h
    | some f =>
      cases f with
      | break_ =>
        simp only [hs, Outcome.done.injEq] at h
        rcases phase2Step_break buf s hs with ⟨op, hop, hnot⟩
        subst h
        have hrec : records buf hierarchyOpcodes (fuel + 1) s.current_offset = [] := by
          rw [records_succ, hop]
          cases get_2b buf (s.current_offset + 2) <;> simp [hnot]
        rw [hrec]
        simpa using ⟨op, hop, hnot⟩
      | continue_ s1 =>
        simp only [hs] at h
        rcases phase2Step_continue buf s s1 hs with ⟨op, len, hop, hlen, hmem, hs1, _⟩
        rcases ih s1 s' h with ⟨h1, h2, h3, h4, hcur, hbrk⟩
        have hc1 : s1.current_offset = s.current_offset + len := by rw [hs1]
        have hrec : records buf hierarchyOpcodes (fuel + 1) s.current_offset
            = ⟨s.current_offset, op, len⟩
              :: records buf hierarchyOpcodes fuel s1.current_offset := by
          rw [records_succ, hop, hlen, hc1]
          simp only [hmem, if_true]
        rw [hrec]
        refine ⟨?_, ?_, ?_, ?_, ?_, hbrk⟩
        · rw [h1, hs1]
        · rw [h2, hs1]
        · rw [h3, hs1]
        · rw [h4, hs1]
        · rw [hcur, hc1]
          simp [Nat.add_assoc]

theorem databaseFirst_iff_shape (nodes : List Node) :
    DatabaseFirst nodes ↔
      ∃ rest, nodes.map shape = (0, node_t.DB) :: rest ∧ ∀ p ∈ rest, p.2 ≠ node_t.DB := by
  cases nodes with
  | nil => simp [DatabaseFirst]
  | cons n rest =>
    simp only [DatabaseFirst, List.map_cons, List.cons.injEq, shape]
    constructor
    · rintro ⟨ht, ho, hrest⟩
      refine ⟨rest.map shape, ⟨by rw [ho, ht], rfl⟩, ?_⟩
      intro p hp
      rcases List.mem_map.mp hp with ⟨m, hm, rfl⟩
      exact hrest m hm
    · rintro ⟨rest', ⟨hn, hr⟩, hall⟩
      have ho : n.offset_ = 0 := congrArg Prod.fst hn
      have ht : n.type_ = node_t.DB := congrArg Prod.snd hn
      refine ⟨ht, ho, ?_⟩
      intro m hm
      exact hall (shape m) (by rw [← hr]; exact List.mem_map_of_mem shape hm)

theorem databaseFirst_of_shape_append (nodes nodes' : List Node) (extra : List (Nat × node_t))
    (h : nodes'.map shape = nodes.map shape ++ extra) (hextra : ∀ p ∈ extra, p.2 ≠ node_t.DB)
    (hdb : DatabaseFirst nodes) : DatabaseFirst nodes' := by
  rcases (databaseFirst_iff_shape nodes).mp hdb with ⟨rest, hrest, hall⟩
  refine (databaseFirst_iff_shape nodes').mpr ⟨rest ++ extra, ?_, ?_⟩
  · rw [h, hrest]
    rfl
  · intro p hp
    rcases List.mem_append.mp hp with hp | hp
    · exact hall p hp
    · exact hextra p hp

theorem nodeOf_ne_DB (r : Record) : ∀ p ∈ nodeOf r, p.2 ≠ node_t.DB := by
  intro p hp
  simp only [nodeOf, Option.mem_def, Option.map_eq_some'] at hp
  rcases hp with ⟨t, ht, rfl⟩
  unfold nodeKind at ht
  split_ifs at ht <;> simp at ht <;> subst ht <;> simp

theorem passes_invariant (step : State → Option Flow) (P : State → Prop)
    (hP : ∀ s s1, P s → step s = some (Flow.continue_ s1) → P s1) :
    ∀ (n : Nat) (s s' : State), passes step n s = some s' → P s → P s' := by
  intro n
  induction n with
  | zero =>
    intro s s' h hs
    simp only [passes, Option.some.injEq] at h
    subst h
    exact hs
  | succ n ih =>
    intro s s' h hs
    unfold passes at h
    cases hstep : step s with
    | none => simp [hstep] at h
    | some f =>
      cases f with
      | break_ => simp [hstep] at h
      | continue_ s1 =>
        simp only [hstep] at h
        exact ih s1 s' h (hP s s1 hs hstep)

theorem phase1Step_databaseFirst (buf : Buffer) (s s1 : State) (hdb : DatabaseFirst s.nodes)
    (h : phase1Step buf s = some (Flow.continue_ s1)) : DatabaseFirst s1.nodes := by
  rcases phase1Step_continue buf s s1 h with ⟨_, _, _, _, _, hs1⟩
  rw [hs1]
  exact hdb

theorem phase2Step_databaseFirst (buf : Buffer) (s s1 : State) (hdb : DatabaseFirst s.nodes)
    (h : phase2Step buf s = some (Flow.continue_ s1)) : DatabaseFirst s1.nodes := by
  rcases phase2Step_shape buf s s1 h with ⟨op, len, _, _, _, _, hsh⟩
  refine databaseFirst_of_shape_append s.nodes s1.nodes _ hsh ?_ hdb
  intro p hp
  exact nodeOf_ne_DB _ p (by simpa using hp)

theorem databaseFirst_ne_nil (nodes : List Node) (h : DatabaseFirst nodes) : nodes ≠ [] := by
  intro hnil
  subst hnil
  exact h

/-- C18. At every point of the scan after the header step the node list is non-empty, its
first element is a node of kind Database at offset 0, and no other node has kind Database:
this holds right after the header, after any number of passes of phase 1 and of phase 2,
and at the end of the scan.  In particular, whenever phase 2 is about to perform a pass the
list has a last element, so the Long-ID assignment to `nodes[nodes.size() - 1]` is in range. -/
theorem database_node_stays_first (buf : Buffer) :
    (∀ s0, header buf = some s0 → DatabaseFirst s0.nodes) ∧
    (∀ s0 n s, header buf = some s0 → passes (phase1Step buf) n s0 = some s →
      DatabaseFirst s.nodes) ∧
    (∀ s0 f1 s1 n s, header buf = some s0 → phase1 buf f1 s0 = Outcome.done s1 →
      passes (phase2Step buf) n s1 = some s →
      DatabaseFirst s.nodes ∧ s.nodes ≠ [] ∧ ∀ v, (setLastId s.nodes v).isSome) ∧
    (∀ fuel s, scan buf fuel = Outcome.done s → DatabaseFirst s.nodes) := by
  have hhdr : ∀ s0, header buf = some s0 → DatabaseFirst s0.nodes := by
    intro s0 h0
    rcases header_eq buf s0 h0 with ⟨id, len, _, _, hs0⟩
    rw [hs0]
    exact ⟨rfl, rfl, by simp⟩
  have hp1 : ∀ s0 f1 s1, header buf = some s0 → phase1 buf f1 s0 = Outcome.done s1 →
      DatabaseFirst s1.nodes := by
    intro s0 f1 s1 h0 h1
    rw [(phase1_effect buf f1 s0 s1 h1).1]
    exact hhdr s0 h0
  refine ⟨hhdr, ?_, ?_, ?_⟩
  · intro s0 n s h0 hp
    exact passes_invariant (phase1Step buf) (fun t => DatabaseFirst t.nodes)
      (fun t t1 ht hstep => phase1Step_databaseFirst buf t t1 ht hstep) n s0 s hp (hhdr s0 h0)
  · intro s0 f1 s1 n s h0 h1 hp
    have hdb : DatabaseFirst s.nodes :=
      passes_invariant (phase2Step buf) (fun t => DatabaseFirst t.nodes)
        (fun t t1 ht hstep => phase2Step_databaseFirst buf t t1 ht hstep) n s1 s hp
        (hp1 s0 f1 s1 h0 h1)
    have hne := databaseFirst_ne_nil s.nodes hdb
    refine ⟨hdb, hne, ?_⟩
    intro v
    rcases setLastId_isSome s.nodes v hne with ⟨nodes', hset, _⟩
    simp [hset]
  · intro fuel s h
    rcases scan_done buf fuel s h with ⟨s0, s1, h0, h1, h2⟩
    refine databaseFirst_of_shape_append s1.nodes s.nodes _ (phase2_shape buf fuel s1 s h2) ?_
      (hp1 s0 fuel s1 h0 h1)
    intro p hp
    rcases List.mem_filterMap.mp hp with ⟨r, _, hr⟩
    exact nodeOf_ne_DB r p hr

theorem database_node_stays_first_witness :
    (DatabaseFirst (demoState [demoDB, demoGroup] 18).nodes ∧
      (demoState [demoDB, demoGroup] 18).nodes ≠ [] ∧
      ∀ v, (setLastId (demoState [demoDB, demoGroup] 18).nodes v).isSome) ∧
    DatabaseFirst (demoState [demoDB, demoGroupLong, demoFace] 62).nodes :=
  ⟨(database_node_stays_first demoBuffer).2.2.1 (demoState [demoDB] 6) 1
      (demoState [demoDB] 6) 2 (demoState [demoDB, demoGroup] 18) (by decide) (by decide)
      (by decide),
   (database_node_stays_first demoBuffer).2.2.2 6
      (demoState [demoDB, demoGroupLong, demoFace] 62) (by decide)⟩

/-! ## Termination of the scan loops -/

theorem loop_not_running (buf : Buffer) (ops : List Nat) (step : State → Option Flow)
    (hstep : ∀ s s1, step s = some (Flow.continue_ s1) →
      ∃ op len, get_2b buf s.current_offset = some op ∧
        get_2b buf (s.current_offset + 2) = some len ∧ op ∈ ops ∧
        s1.current_offset = s.current_offset + len)
    (hread : ∀ s, get_2b buf s.current_offset = none → step s = none) :
    ∀ (fuel : Nat) (s : State), buf.length ≤ s.current_offset + fuel →
      (∀ r ∈ records buf ops (fuel + 1) s.current_offset, 0 < r.length) →
      loop step (fuel + 1) s ≠ Outcome.running := by
  intro fuel
  induction fuel with
  | zero =>
    intro s hlen _
    have hnone : get_2b buf s.current_offset = none :=
      (get_2b_eq_none_iff buf s.current_offset).mpr (by omega)
    unfold loop
    simp [hread s hnone]
  | succ fuel ih =>
    intro s hlen hpos
    unfold loop
    cases hs : step s with
    | none => simp
    | some f =>
      cases f with
      | break_ => simp
      | continue_ s1 =>
        simp only
        rcases hstep s s1 hs with ⟨op, len, hop, hl, hmem, hcur⟩
        have hrec : records buf ops (fuel + 1 + 1) s.current_offset
            = ⟨s.current_offset, op, len⟩ :: records buf ops (fuel + 1) s1.current_offset := by
          rw [records_succ, hop, hl, hcur]
          simp only [hmem, if_true]
        rw [hrec] at hpos
        have hlenpos : 0 < len := hpos ⟨s.current_offset, op, len⟩ (List.mem_cons_self _ _)
        exact ih s1 (by omega) (fun r hr => hpos r (List.mem_cons_of_mem _ hr))

theorem phase1Step_reads (buf : Buffer) (s s1 : State)
    (h : phase1Step buf s = some (Flow.continue_ s1)) :
    ∃ op len, get_2b buf s.current_offset = some op ∧
      get_2b buf (s.current_offset + 2) = some len ∧ op ∈ preambleOpcodes ∧
      s1.current_offset = s.current_offset + len := by
  rcases phase1Step_continue buf s s1 h with ⟨op, len, hop, hlen, hmem, hs1⟩
  exact ⟨op, len, hop, hlen, hmem, by rw [hs1]⟩

theorem phase2Step_reads (buf : Buffer) (s s1 : State)
    (h : phase2Step buf s = some (Flow.continue_ s1)) :
    ∃ op len, get_2b buf s.current_offset = some op ∧
      get_2b buf (s.current_offset + 2) = some len ∧ op ∈ hierarchyOpcodes ∧
      s1.current_offset = s.current_offset + len := by
  rcases phase2Step_continue buf s s1 h with ⟨op, len, hop, hlen, hmem, hs1, _⟩
  exact ⟨op, len, hop, hlen, hmem, by rw [hs1]⟩

theorem phase1_not_running (buf : Buffer) (s : State)
    (hpos : ∀ r ∈ records buf preambleOpcodes (buf.length + 1) s.current_offset,
      0 < r.length) :
    phase1 buf (buf.length + 1) s ≠ Outcome.running :=
  loop_not_running buf preambleOpcodes (phase1Step buf) (phase1Step_reads buf)
    (fun t ht => by simp [phase1Step, ht]) buf.length s (by omega) hpos

theorem phase2_not_running (buf : Buffer) (s : State)
    (hpos : ∀ r ∈ records buf hierarchyOpcodes (buf.length + 1) s.current_offset,
      0 < r.length) :
    phase2 buf (buf.length + 1) s ≠ Outcome.running :=
  loop_not_running buf hierarchyOpcodes (phase2Step buf) (phase2Step_reads buf)
    (fun t ht => by simp [phase2Step, ht]) buf.length s (by omega) hpos

/-- C19. When every recognised record a loop reaches has declared length at least 1, each
pass of phase 1 and of phase 2 moves the cursor strictly forward, and, a read outside the
buffer counting as failure, each loop stops within `buffer length + 1` passes, that is after
processing at most buffer-length records; so does the whole scan.  Conversely a loop that is
still running after that many passes has reached a recognised record of declared length 0. -/
theorem scan_loops_terminate (buf : Buffer) :
    (∀ s s1, (phase1Step buf s = some (Flow.continue_ s1) ∨
        phase2Step buf s = some (Flow.continue_ s1)) →
      ∃ len, get_2b buf (s.current_offset + 2) = some len ∧
        s1.current_offset = s.current_offset + len ∧
        (1 ≤ len → s.current_offset < s1.current_offset)) ∧
    (∀ s, (∀ r ∈ records buf preambleOpcodes (buf.length + 1) s.current_offset,
        1 ≤ r.length) → phase1 buf (buf.length + 1) s ≠ Outcome.running) ∧
    (∀ s, (∀ r ∈ records buf hierarchyOpcodes (buf.length + 1) s.current_offset,
        1 ≤ r.length) → phase2 buf (buf.length + 1) s ≠ Outcome.running) ∧
    (∀ s0, header buf = some s0 →
      (∀ r ∈ records buf preambleOpcodes (buf.length + 1) s0.current_offset, 1 ≤ r.length) →
      (∀ s1, phase1 buf (buf.length + 1) s0 = Outcome.done s1 →
        ∀ r ∈ records buf hierarchyOpcodes (buf.length + 1) s1.current_offset,
          1 ≤ r.length) →
      scan buf (buf.length + 1) ≠ Outcome.running) ∧
    (∀ s, phase1 buf (buf.length + 1) s = Outcome.running →
      ∃ r ∈ records buf preambleOpcodes (buf.length + 1) s.current_offset, r.length = 0) ∧
    (∀ s, phase2 buf (buf.length + 1) s = Outcome.running →
      ∃ r ∈ records buf hierarchyOpcodes (buf.length + 1) s.current_offset,
        r.length = 0) := by
  refine ⟨?_, phase1_not_running buf, phase2_not_running buf, ?_, ?_, ?_⟩
  · intro s s1 h
    rcases h with h | h
    · rcases phase1Step_reads buf s s1 h with ⟨_, len, _, hlen, _, hcur⟩
      exact ⟨len, hlen, hcur, fun hpos => by omega⟩
    · rcases phase2Step_reads buf s s1 h with ⟨_, len, _, hlen, _, hcur⟩
      exact ⟨len, hlen, hcur, fun hpos => by omega⟩
  · intro s0 h0 hpos1 hpos2
    unfold scan
    simp only [h0]
    cases h1 : phase1 buf (buf.length + 1) s0 with
    | done s1 =>
      simp only
      exact phase2_not_running buf s1 (hpos2 s1 h1)
    | undef => simp
    | running => exact absurd h1 (phase1_not_running buf s0 hpos1)
  · intro s hrun
    by_contra hcon
    refine phase1_not_running buf s ?_ hrun
    intro r hr
    by_contra hz
    exact hcon ⟨r, hr, by omega⟩
  · intro s hrun
    by_contra hcon
    refine phase2_not_running buf s ?_ hrun
    intro r hr
    by_contra hz
    exact hcon ⟨r, hr, by omega⟩

set_option maxRecDepth 100000 in
theorem scan_loops_terminate_witness :
    (∃ len, get_2b demoBuffer ((demoState [demoDB] 6).current_offset + 2) = some len ∧
      (demoState [demoDB] 10).current_offset = (demoState [demoDB] 6).current_offset + len ∧
      (1 ≤ len → (demoState [demoDB] 6).current_offset
        < (demoState [demoDB] 10).current_offset)) ∧
    phase2 demoBuffer (demoBuffer.length + 1) (demoState [demoDB] 6) ≠ Outcome.running ∧
    scan demoBuffer (demoBuffer.length + 1) ≠ Outcome.running ∧
    (∃ r ∈ records zeroLengthBuffer hierarchyOpcodes (zeroLengthBuffer.length + 1)
        (demoState [demoDB] 6).current_offset, r.length = 0) :=
  ⟨(scan_loops_terminate demoBuffer).1 (demoState [demoDB] 6) (demoState [demoDB] 10)
      (Or.inr (by decide)),
   (scan_loops_terminate demoBuffer).2.2.1 (demoState [demoDB] 6) (by decide),
   (scan_loops_terminate demoBuffer).2.2.2.1 (demoState [demoDB] 6) (by decide) (by decide)
      (fun s1 h1 => by
        have hs1 : s1 = demoState [demoDB] 6 := by
          have hd : phase1 demoBuffer (demoBuffer.length + 1) (demoState [demoDB] 6)
              = Outcome.done (demoState [demoDB] 6) := by decide
          rw [hd] at h1
          exact (Outcome.done.inj h1).symm
        subst hs1
        decide),
   (scan_loops_terminate zeroLengthBuffer).2.2.2.2.2 (demoState [demoDB] 6) (by decide)⟩

/-! ## Which color palette the report uses -/

/-- C20. After a completed scan the recorded color-palette offset and size are those of the
last Color-Palette record met in the preamble (each one overwrites the location recorded
before), and they stay 0 when the preamble has none.  The face report resolves every color
against that recorded offset; with no Color-Palette record the color of index `i` is read
from the absolute buffer position `132 + 4*i`. -/
theorem last_color_palette_wins (buf : Buffer) (fuel : Nat) (s : State)
    (h : scan buf fuel = Outcome.done s) :
    ∃ s0, header buf = some s0 ∧
      (s.clrplt_offset_, s.clrplt_size_) =
        ((((records buf preambleOpcodes fuel s0.current_offset).filter
          (fun r => r.opcode = 32)).getLast?).map (fun r => (r.offset, r.length))).getD
          (0, 0) ∧
      (run buf fuel =
        match faceReport buf s.clrplt_offset_ s.nodes with
        | none => Outcome.undef
        | some report => Outcome.done (s.nodes, report)) ∧
      ((records buf preambleOpcodes fuel s0.current_offset).filter
          (fun r => r.opcode = 32) = [] →
        s.clrplt_offset_ = 0 ∧ s.clrplt_size_ = 0 ∧
        ∀ i, i < 65536 → colorLookup buf s.clrplt_offset_ i = get_4b buf (132 + 4 * i)) := by
  rcases scan_done buf fuel s h with ⟨s0, s1, h0, h1, h2⟩
  rcases header_eq buf s0 h0 with ⟨id, L, _, _, hs0⟩
  rcases phase1_effect buf fuel s0 s1 h1 with ⟨_, _, _, hclr, _, _⟩
  rcases phase2_effect buf fuel s1 s h2 with ⟨ho, hsz, _, _, _, _⟩
  have hz : (s0.clrplt_offset_, s0.clrplt_size_) = (0, 0) := by rw [hs0]
  have hloc : (s.clrplt_offset_, s.clrplt_size_) =
      ((((records buf preambleOpcodes fuel s0.current_offset).filter
        (fun r => r.opcode = 32)).getLast?).map (fun r => (r.offset, r.length))).getD
        (0, 0) := by
    rw [ho, hsz, hclr, hz]
  refine ⟨s0, h0, hloc, ?_, ?_⟩
  · unfold run
    rw [h]
  · intro hnil
    rw [hnil] at hloc
    simp only [List.getLast?_nil, Option.map_none', Option.getD_none, Prod.mk.injEq] at hloc
    refine ⟨hloc.1, hloc.2, ?_⟩
    intro i hi
    rw [colorLookup_eq_get_4b buf s.clrplt_offset_ i hi, hloc.1, Nat.zero_add]

theorem last_color_palette_wins_witness :
    ∃ s0, header twoPalettesBuffer = some s0 ∧
      ((synthState (10, 4) [] [demoDB] 14).clrplt_offset_, (synthState (10, 4) [] [demoDB] 14).clrplt_size_) =
        ((((records twoPalettesBuffer preambleOpcodes 3 s0.current_offset).filter
          (fun r => r.opcode = 32)).getLast?).map (fun r => (r.offset, r.length))).getD
          (0, 0) ∧
      (run twoPalettesBuffer 3 =
        match faceReport twoPalettesBuffer (synthState (10, 4) [] [demoDB] 14).clrplt_offset_
          (synthState (10, 4) [] [demoDB] 14).nodes with
        | none => Outcome.undef
        | some report => Outcome.done ((synthState (10, 4) [] [demoDB] 14).nodes, report)) ∧
      ((records twoPalettesBuffer preambleOpcodes 3 s0.current_offset).filter
          (fun r => r.opcode = 32) = [] →
        (synthState (10, 4) [] [demoDB] 14).clrplt_offset_ = 0 ∧
        (synthState (10, 4) [] [demoDB] 14).clrplt_size_ = 0 ∧
        ∀ i, i < 65536 → colorLookup twoPalettesBuffer (synthState (10, 4) [] [demoDB] 14).clrplt_offset_ i
          = get_4b twoPalettesBuffer (132 + 4 * i)) :=
  last_color_palette_wins twoPalettesBuffer 3 (synthState (10, 4) [] [demoDB] 14) (by decide)

end FLT
